import Mathlib

/-!
Verification model of the audiocontrol-org/midi-server core: the SysEx
reassembler and outbound policy of MidiPort and VirtualMidiPort, the
RouteManager (route table, hot-path dispatch, remote URL parsing, JSON
persistence) and the HTTP send handler.  All definitions are shallow
embeddings of the C++ sources under src/; strings are modelled as
List Char, bytes as Nat, and the std::map of routes as a list kept in
strictly increasing key order.
-/

set_option maxHeartbeats 2000000

namespace MidiServer

/-- Bytes as delivered by the MIDI driver (C++ uint8_t values). -/
abbrev Byte := Nat

/-- SysEx reassembly state of a port: the fields sysexBuffering and
sysexBuffer of MidiPort (src/MidiPort.h:224-225) and VirtualMidiPort
(src/VirtualMidiPort.h:233-234).  Initial state is (false, []). -/
structure ReasmState where
  sysexBuffering : Bool
  sysexBuffer : List Byte
deriving DecidableEq

/-- Initial reassembly state. -/
def initReasm : ReasmState := ⟨false, []⟩

/-- One call of MidiPort::handleIncomingMidiMessage (src/MidiPort.h:139-212)
on a raw fragment f, returning the new reassembly state and the completed
message (if any) that is pushed onto the inbound FIFO and handed to the
routing callback.  In the source, startsWithF0 = (size > 0 and
rawData[0] == 0xF0), endsWithF7 = (size > 0 and rawData[size-1] == 0xF7),
and JUCE defines MidiMessage::isSysEx() as (first raw byte == 0xF0), so
isSysEx coincides with startsWithF0; getSysExData()/getSysExDataSize()
are raw+1 and rawSize-2.  The disjunction below mirrors the source's
isSysExRelated = message.isSysEx() || startsWithF0 || (sysexBuffering && size > 0). -/
def midiPortStep (st : ReasmState) (f : List Byte) : ReasmState × Option (List Byte) :=
  if f.head? = some 240 ∨ f.head? = some 240 ∨ (st.sysexBuffering ∧ f ≠ []) then
    if f.head? = some 240 then
      -- start of new SysEx: buffer cleared and set to f, sysexBuffering = true;
      -- if the fragment also ends with 0xF7 it is emitted at once and state resets
      if f.getLast? = some 247 then (⟨false, []⟩, some f)
      else (⟨true, f⟩, none)
    else if st.sysexBuffering then
      -- continuation or end of SysEx: append, emit when the fragment ends with 0xF7
      if f.getLast? = some 247 then (⟨false, []⟩, some (st.sysexBuffer ++ f))
      else (⟨true, st.sysexBuffer ++ f⟩, none)
    else if f.head? = some 240 then
      -- JUCE pre-assembled complete SysEx branch (unreachable: the guard is the
      -- same proposition as the first branch)
      (st, some (240 :: ((f.drop 1).take (f.length - 2)) ++ [247]))
    else
      -- isSysExRelated held but no branch fired: nothing pushed, state unchanged
      (st, none)
  else
    -- regular MIDI message (non-SysEx): emitted as-is
    (st, some f)

/-- One call of VirtualMidiPort::handleIncomingMidiMessage
(src/VirtualMidiPort.h:159-221).  Unlike MidiPort, the outer guard is only
message.isSysEx() || startsWithF0 and does not test sysexBuffering, so a
continuation fragment that does not start with 0xF0 falls through to the
regular branch, leaving the buffer and the buffering flag untouched. -/
def virtualPortStep (st : ReasmState) (f : List Byte) : ReasmState × Option (List Byte) :=
  if f.head? = some 240 ∨ f.head? = some 240 then
    if f.head? = some 240 then
      if f.getLast? = some 247 then (⟨false, []⟩, some f)
      else (⟨true, f⟩, none)
    else if st.sysexBuffering then
      if f.getLast? = some 247 then (⟨false, []⟩, some (st.sysexBuffer ++ f))
      else (⟨true, st.sysexBuffer ++ f⟩, none)
    else if f.head? = some 240 then
      (st, some (240 :: ((f.drop 1).take (f.length - 2)) ++ [247]))
    else
      (st, none)
  else
    (st, some f)

/-- Run a reassembler step function over a sequence of raw inbound fragments
from a given state, collecting the emitted complete messages in order. -/
def runReasmFrom (step : ReasmState → List Byte → ReasmState × Option (List Byte))
    (st : ReasmState) : List (List Byte) → ReasmState × List (List Byte)
  | [] => (st, [])
  | f :: fs =>
      let out := step st f
      let rest := runReasmFrom step out.1 fs
      (rest.1, out.2.toList ++ rest.2)

/-- Run a reassembler from the initial state (false, []). -/
def runReasm (step : ReasmState → List Byte → ReasmState × Option (List Byte))
    (fs : List (List Byte)) : ReasmState × List (List Byte) :=
  runReasmFrom step initReasm fs

/-- Transition table of claim C1 (spec section 4.1), written exactly as the
claim states it: a fragment both starting with 0xF0 and ending with 0xF7
discards any partial buffer and is emitted whole; a fragment starting with
0xF0 but not ending with 0xF7 begins buffering; while buffering, fragments
are appended and the concatenation is emitted when a fragment ends with
0xF7; a non-SysEx fragment while not buffering is emitted as-is. -/
def claimTableStep (st : ReasmState) (f : List Byte) : ReasmState × Option (List Byte) :=
  if f.head? = some 240 ∧ f.getLast? = some 247 then (⟨false, []⟩, some f)
  else if f.head? = some 240 then (⟨true, f⟩, none)
  else if st.sysexBuffering then
    if f.getLast? = some 247 then (⟨false, []⟩, some (st.sysexBuffer ++ f))
    else (⟨true, st.sysexBuffer ++ f⟩, none)
  else (st, some f)

theorem midiPortStep_eq_claimTableStep (st : ReasmState) (f : List Byte) (hf : f ≠ []) :
    midiPortStep st f = claimTableStep st f := by
  unfold midiPortStep claimTableStep
  by_cases h0 : f.head? = some 240 <;>
    by_cases h7 : f.getLast? = some 247 <;>
      cases hb : st.sysexBuffering <;>
        simp [h0, h7, hb, hf]

theorem runReasmFrom_midi_eq_claim (fs : List (List Byte)) :
    ∀ st, (∀ f ∈ fs, f ≠ []) →
      runReasmFrom midiPortStep st fs = runReasmFrom claimTableStep st fs := by
  induction fs with
  | nil => intro st _; rfl
  | cons f fs ih =>
      intro st h
      have hf : f ≠ [] := h f (by simp)
      have hrest : ∀ g ∈ fs, g ≠ [] := fun g hg => h g (by simp [hg])
      simp only [runReasmFrom, midiPortStep_eq_claimTableStep st f hf,
        ih (claimTableStep st f).1 hrest]

/-- C1: for every sequence of raw inbound fragments delivered to
MidiPort::handleIncomingMidiMessage, starting from reassembly state
(buffering=false, buffer=[]), the sequence of complete messages pushed onto
the inbound FIFO (and handed to the routing callback) equals the sequence
produced by the claim's section-4.1 transition table, i.e. the whole MIDI
messages present in the fragment stream, in order. -/
theorem C1_midiPort_reassembly (fs : List (List Byte)) (h : ∀ f ∈ fs, f ≠ []) :
    (runReasm midiPortStep fs).2 = (runReasm claimTableStep fs).2 := by
  unfold runReasm
  rw [runReasmFrom_midi_eq_claim fs initReasm h]

/-- Witness for C1 at the spec's concrete fragmented-SysEx scenario:
fragments [F0 7E 01], [02 03], [04 F7] reassemble to exactly one message. -/
theorem C1_midiPort_reassembly_witness :
    (∀ f ∈ [[240, 126, 1], [2, 3], [4, 247]], f ≠ ([] : List Byte)) ∧
      (runReasm midiPortStep [[240, 126, 1], [2, 3], [4, 247]]).2 =
        (runReasm claimTableStep [[240, 126, 1], [2, 3], [4, 247]]).2 ∧
      (runReasm midiPortStep [[240, 126, 1], [2, 3], [4, 247]]).2 =
        [[240, 126, 1, 2, 3, 4, 247]] :=
  ⟨by decide, C1_midiPort_reassembly _ (by decide), by decide⟩

/-- C4 (code bug evidence): on the fragment sequence [F0 01], [02 F7] the two
reassemblers disagree.  MidiPort reassembles the SysEx into one message
F0 01 02 F7; VirtualMidiPort, whose guard at VirtualMidiPort.h:174 omits the
sysexBuffering test that MidiPort.h:153-154 has, emits the continuation
fragment [02 F7] as a bogus regular message and leaves its buffer stuck. -/
theorem C4_virtualPort_reassembly_diverges :
    (runReasm midiPortStep [[240, 1], [2, 247]]).2 = [[240, 1, 2, 247]] ∧
      (runReasm virtualPortStep [[240, 1], [2, 247]]).2 = [[2, 247]] ∧
      (runReasm virtualPortStep [[240, 1], [2, 247]]).2 ≠
        (runReasm midiPortStep [[240, 1], [2, 247]]).2 := by
  refine ⟨by decide, by decide, by decide⟩

/-- Action handed to the platform transmit primitives by sendMessage:
either juce MidiMessage::createSysExMessage(data+1, size-2) followed by
sendMessageNow, or a short-message sendMessageNow. -/
inductive TransmitAction where
  | sysex (interior : List Byte)
  | short (bytes : List Byte)
deriving DecidableEq

/-- MidiPort::sendMessage (src/MidiPort.h:76-126): returns the transmit
action handed to the platform, or none when nothing is transmitted.
outputOpen models (output != nullptr). -/
def midiPortSendMessage (outputOpen : Bool) (data : List Byte) : Option TransmitAction :=
  if ¬outputOpen then none
  else if data = [] then none
  else if data.head? = some 240 then
    if ¬(data.getLast? = some 247) then none
    else if 2 < data.length then some (.sysex ((data.drop 1).take (data.length - 2)))
    else none
  else if data.length ≥ 1 ∧ data.length ≤ 3 then some (.short data)
  else none

/-- VirtualMidiPort::sendMessage (src/VirtualMidiPort.h:82-117): same policy
as MidiPort::sendMessage, with virtualOutput in place of output. -/
def virtualPortSendMessage (outputOpen : Bool) (data : List Byte) : Option TransmitAction :=
  if ¬outputOpen then none
  else if data = [] then none
  else if data.head? = some 240 then
    if ¬(data.getLast? = some 247) then none
    else if 2 < data.length then some (.sysex ((data.drop 1).take (data.length - 2)))
    else none
  else if data.length ≥ 1 ∧ data.length ≤ 3 then some (.short data)
  else none

/-- Outbound policy exactly as claim C2 states it: a message whose first
byte is 0xF0 has the platform SysEx primitive invoked with the interior
bytes iff the last byte is 0xF7 and the length is at least 3; a message
whose first byte is not 0xF0 has the short-message primitive invoked iff
its length is 1, 2 or 3; in every other case nothing is transmitted. -/
def claimSendPolicy (data : List Byte) : Option TransmitAction :=
  if data.head? = some 240 then
    if data.getLast? = some 247 ∧ 3 ≤ data.length then
      some (.sysex ((data.drop 1).take (data.length - 2)))
    else none
  else if data.length = 1 ∨ data.length = 2 ∨ data.length = 3 then some (.short data)
  else none

/-- C2: for every non-empty byte vector sent on an open output port, both
MidiPort::sendMessage and VirtualMidiPort::sendMessage transmit exactly as
the claim's policy prescribes. -/
theorem C2_sendMessage_policy (data : List Byte) (h : data ≠ []) :
    midiPortSendMessage true data = claimSendPolicy data ∧
      virtualPortSendMessage true data = claimSendPolicy data := by
  constructor <;>
    · simp only [midiPortSendMessage, virtualPortSendMessage, claimSendPolicy]
      by_cases h0 : data.head? = some 240 <;>
        by_cases h7 : data.getLast? = some 247 <;>
          simp [h, h0, h7] <;> split_ifs <;> simp_all <;> omega

/-- Witness for C2 at the note-on message [90 3C 7F] and at the SysEx
message [F0 01 F7]. -/
theorem C2_sendMessage_policy_witness :
    ([144, 60, 127] ≠ ([] : List Byte)) ∧
      midiPortSendMessage true [144, 60, 127] = some (.short [144, 60, 127]) ∧
      midiPortSendMessage true [240, 1, 247] = some (.sysex [1]) := by
  refine ⟨by decide, ?_, ?_⟩
  · rw [(C2_sendMessage_policy [144, 60, 127] (by decide)).1]; decide
  · rw [(C2_sendMessage_policy [240, 1, 247] (by decide)).1]; decide

/-! String model: std::string is modelled as List Char; std::string::find,
substr and std::stoi are given executable embeddings. -/

/-- C++ std::string modelled as a list of characters. -/
abbrev Str := List Char

/-- Convert a Lean string literal to the Str model. -/
def strL (s : String) : Str := s.data

/-- Boolean prefix test (mirrors matching a pattern at one position). -/
def isPrefixB : Str → Str → Bool
  | [], _ => true
  | _ :: _, [] => false
  | a :: as, b :: bs => if a = b then isPrefixB as bs else false

/-- std::string::find(pattern): index of the first occurrence of pat, or
none for npos. -/
def findSub (pat : Str) : Str → Option Nat
  | [] => if isPrefixB pat [] then some 0 else none
  | c :: s => if isPrefixB pat (c :: s) then some 0 else (findSub pat s).map (· + 1)

/-- std::string::find(char): index of the first occurrence of c. -/
def findIdxChar (c : Char) : Str → Option Nat
  | [] => none
  | a :: s => if a = c then some 0 else (findIdxChar c s).map (· + 1)

/-- std::string::find(char, start). -/
def findCharFrom (s : Str) (c : Char) (start : Nat) : Option Nat :=
  (findIdxChar c (s.drop start)).map (· + start)

/-- std::string::find(pattern, start). -/
def findSubFrom (s : Str) (pat : Str) (start : Nat) : Option Nat :=
  (findSub pat (s.drop start)).map (· + start)

/-- std::string::substr(pos, count) for in-range pos (count clamps). -/
def cppSubstr (s : Str) (pos cnt : Nat) : Str := (s.drop pos).take cnt

/-- Whitespace as recognised by std::stoi (via strtol / isspace). -/
def isCppSpace (c : Char) : Bool :=
  c == ' ' || c == '\t' || c == '\n' || c == '\x0b' || c == '\x0c' || c == '\r'

/-- Decimal digit test. -/
def isDigitC (c : Char) : Bool := '0' ≤ c && c ≤ '9'

/-- Value of a decimal digit string. -/
def digitsToNat (ds : Str) : Nat := ds.foldl (fun a c => a * 10 + (c.toNat - 48)) 0

/-- std::stoi: skips leading whitespace, accepts one optional sign, then
requires at least one decimal digit (else std::invalid_argument) and a
value representable as int (else std::out_of_range); trailing characters
are ignored.  none models a thrown exception. -/
def stoiOpt (s : Str) : Option Int :=
  let s1 := s.dropWhile isCppSpace
  let neg : Bool := s1.head? = some '-'
  let s2 := if s1.head? = some '-' ∨ s1.head? = some '+' then s1.tail else s1
  let ds := s2.takeWhile isDigitC
  if ds = [] then none
  else
    let v : Int := if neg then -(digitsToNat ds : Int) else (digitsToNat ds : Int)
    if v < -2147483648 ∨ 2147483647 < v then none else some v

/-- Lexicographic order on byte strings (std::string::operator<). -/
def strLt : Str → Str → Bool
  | [], [] => false
  | [], _ :: _ => true
  | _ :: _, [] => false
  | a :: as, b :: bs => if a < b then true else if b < a then false else strLt as bs

theorem isPrefixB_append_self (p s : Str) : isPrefixB p (p ++ s) = true := by
  induction p with
  | nil => rfl
  | cons a as ih => simp [isPrefixB, ih]

theorem findIdxChar_cons_self (c : Char) (s : Str) : findIdxChar c (c :: s) = some 0 := by
  simp [findIdxChar]

theorem findIdxChar_append_not_mem (c : Char) (A s : Str) (h : ∀ a ∈ A, a ≠ c) :
    findIdxChar c (A ++ s) = (findIdxChar c s).map (· + A.length) := by
  induction A with
  | nil => simp [Option.map_id]
  | cons a as ih =>
      have ha : a ≠ c := h a (by simp)
      have hrest : ∀ x ∈ as, x ≠ c := fun x hx => h x (by simp [hx])
      simp [findIdxChar, ha, ih hrest, Option.map_map]

theorem findIdxChar_eq_none (c : Char) (A : Str) (h : ∀ a ∈ A, a ≠ c) :
    findIdxChar c A = none := by
  have h2 := findIdxChar_append_not_mem c A [] h
  simp [findIdxChar] at h2
  simp [h2]

theorem strLt_irrefl (s : Str) : strLt s s = false := by
  induction s with
  | nil => rfl
  | cons a as ih => simp [strLt, ih]

theorem strLt_asymm {a b : Str} (h : strLt a b = true) : strLt b a = false := by
  induction a generalizing b with
  | nil => cases b with
    | nil => simp [strLt] at h
    | cons x xs => simp [strLt]
  | cons x xs ih =>
      cases b with
      | nil => simp [strLt] at h
      | cons y ys =>
          by_cases hxy : x < y
          · have hyx : ¬ y < x := lt_asymm hxy
            simp [strLt, hxy, hyx] at h ⊢
          · by_cases hyx : y < x
            · simp [strLt, hxy, hyx] at h
            · simp [strLt, hxy, hyx] at h ⊢
              exact ih h

theorem strLt_ne {a b : Str} (h : strLt a b = true) : a ≠ b := by
  intro he
  rw [he, strLt_irrefl] at h
  exact Bool.false_ne_true h

/-! RouteManager model (src/RouteManager.h).  The std::map of routes is
modelled as a list of MidiRoute in strictly increasing id order; the
messagesForwarded uint64 counter is modelled as Nat (the wrap at 2^64 is
unreachable for a monotone event counter). -/

/-- RouteEndpoint (src/RouteManager.h:39-43). -/
structure RouteEndpoint where
  serverUrl : Str
  portId : Str
  portName : Str
deriving DecidableEq

/-- MidiRoute (src/RouteManager.h:45-51). -/
structure MidiRoute where
  id : Str
  enabled : Bool
  source : RouteEndpoint
  destination : RouteEndpoint
  messagesForwarded : Nat
deriving DecidableEq

/-- Contents of the std::map<std::string, MidiRoute> routes, in key order. -/
abbrev Table := List MidiRoute

/-- Invariant of the std::map model: entries strictly sorted by id. -/
abbrev TableSorted (t : Table) : Prop := t.Pairwise (fun a b => strLt a.id b.id = true)

/-- All route ids distinct (a consequence of the std::map keying). -/
abbrev NodupIds (t : Table) : Prop := (t.map (fun r => r.id)).Nodup

/-- std::map::find by route id. -/
def mapFind (t : Table) (k : Str) : Option MidiRoute := t.find? (fun r => r.id == k)

/-- std::map operator[] assignment routes[id] = route: insert or replace,
preserving key order. -/
def mapInsert (r : MidiRoute) : Table → Table
  | [] => [r]
  | x :: xs =>
      if strLt r.id x.id then r :: x :: xs
      else if r.id = x.id then r :: xs
      else x :: mapInsert r xs

/-- The counter update in RouteManager::forwardMessage (RouteManager.h:251-257):
find the route by id and increment messagesForwarded (no-op when absent). -/
def mapIncr (k : Str) : Table → Table
  | [] => []
  | x :: xs =>
      if x.id = k then { x with messagesForwarded := x.messagesForwarded + 1 } :: xs
      else x :: mapIncr k xs

/-- The enabled-flag update in RouteManager::setRouteEnabled (RouteManager.h:186-187). -/
def mapSetEnabled (k : Str) (e : Bool) : Table → Table
  | [] => []
  | x :: xs =>
      if x.id = k then { x with enabled := e } :: xs
      else x :: mapSetEnabled k e xs

/-- RouteManager::setRouteEnabled (src/RouteManager.h:179-193): mutates the
flag if the route exists and reports whether it was present (persistence is
a side effect outside this model). -/
def setRouteEnabled (t : Table) (routeId : Str) (enabled : Bool) : Table × Bool :=
  if (mapFind t routeId).isSome then (mapSetEnabled routeId enabled t, true)
  else (t, false)

/-- RouteManager::addRoute (src/RouteManager.h:141-162).  generatedId stands
for the value generateRouteId() would produce (time- and rand-dependent);
it is used only when no prespecifiedId is supplied.  The new route has
messagesForwarded = 0 and replaces any existing route with the same id. -/
def addRoute (t : Table) (source destination : RouteEndpoint) (enabled : Bool)
    (prespecifiedId : Str) (generatedId : Str) : Table × Str :=
  let rid := if prespecifiedId = [] then generatedId else prespecifiedId
  (mapInsert ⟨rid, enabled, source, destination, 0⟩ t, rid)

/-- RouteManager::getRoutesForSource (src/RouteManager.h:196-206): the routes
with enabled and source.portId == sourcePortId, in map (id) order. -/
def getRoutesForSource (t : Table) (sourcePortId : Str) : List MidiRoute :=
  t.filter (fun r => r.enabled && r.source.portId == sourcePortId)

/-- RouteManager::isLocalDestination (src/RouteManager.h:395-397). -/
def isLocalDestination (serverUrl : Str) : Bool :=
  serverUrl == [] || serverUrl == strL "local"

/-- An item enqueued on the RemoteForwarder for host:port
(RouteManager.h:448 getForwarder(host, port).send(path, body)). -/
structure RemoteAction where
  host : Str
  port : Int
  path : Str
  body : Str
deriving DecidableEq

/-- Path computation of RouteManager::forwardToRemoteServer
(RouteManager.h:424-433). -/
def remotePath (portId : Str) : Str :=
  if isPrefixB (strL "virtual:") portId then
    strL "/virtual/" ++ portId.drop 8 ++ strL "/send"
  else
    strL "/port/" ++ portId ++ strL "/send"

/-- Body built by RouteManager::forwardToRemoteServer (RouteManager.h:436-442):
the message bytes as comma-separated decimal integers. -/
def joinComma : List Str → Str
  | [] => []
  | [x] => x
  | x :: y :: xs => x ++ ',' :: joinComma (y :: xs)

/-- JSON body of a remote forward. -/
def messageBody (data : List Byte) : Str :=
  strL "\x7b\"message\":[" ++ joinComma (data.map (fun b => strL (toString b))) ++ strL "]\x7d"

/-- RouteManager::forwardToRemoteServer (src/RouteManager.h:399-449).
Parses host and port from the destination serverUrl and enqueues the
message.  error () models an exception escaping (std::stoi throws
std::invalid_argument or std::out_of_range on a malformed port).  The
size_t expression portEnd - colonPos - 1 wraps around when portEnd is
before the colon; substr then clamps to the rest of the string. -/
def forwardToRemoteServer (dest : RouteEndpoint) (data : List Byte) :
    Except Unit RemoteAction :=
  let url := if isPrefixB (strL "http://") dest.serverUrl then dest.serverUrl.drop 7
             else dest.serverUrl
  let colonPos := findIdxChar ':' url
  let slashPos := findIdxChar '/' url
  match colonPos with
  | some cp =>
      let portEnd := match slashPos with | some sp => sp | none => url.length
      let cnt := if cp + 1 ≤ portEnd then portEnd - (cp + 1) else url.length
      match stoiOpt (cppSubstr url (cp + 1) cnt) with
      | none => .error ()
      | some port => .ok ⟨url.take cp, port, remotePath dest.portId, messageBody data⟩
  | none =>
      let host := match slashPos with | some sp => url.take sp | none => url
      .ok ⟨host, 80, remotePath dest.portId, messageBody data⟩

/-- Observable dispatch of one route: a synchronous local forwarder call or
an enqueue on a RemoteForwarder. -/
inductive DispatchAction where
  | localSend (destPortId : Str) (data : List Byte)
  | remote (a : RemoteAction)
deriving DecidableEq

/-- RouteManager::forwardToDestination (src/RouteManager.h:377-393).
forwarderSet models whether the localForwarder callback is set; when it is
not, the local branch only logs and nothing is dispatched. -/
def forwardToDestination (route : MidiRoute) (data : List Byte) (forwarderSet : Bool) :
    Except Unit (Option DispatchAction) :=
  if isLocalDestination route.destination.serverUrl then
    .ok (if forwarderSet then some (.localSend route.destination.portId data) else none)
  else
    (forwardToRemoteServer route.destination data).map (fun a => some (.remote a))

/-- The per-route loop of RouteManager::forwardMessage (RouteManager.h:247-258):
dispatch, then increment the route's counter by re-finding it in the map.
An exception from forwardToDestination aborts the loop (it propagates out of
forwardMessage). -/
def forwardLoop (data : List Byte) (forwarderSet : Bool) :
    List MidiRoute → Table → List DispatchAction → Except Unit (Table × List DispatchAction)
  | [], t, acc => .ok (t, acc)
  | r :: rest, t, acc =>
      match forwardToDestination r data forwarderSet with
      | .error e => .error e
      | .ok a => forwardLoop data forwarderSet rest (mapIncr r.id t) (acc ++ a.toList)

/-- RouteManager::forwardMessage (src/RouteManager.h:230-259): collect the
enabled routes matching the source, then dispatch each and count it.
Returns the updated table and the dispatches, or error () when an exception
escapes. -/
def forwardMessage (t : Table) (forwarderSet : Bool) (sourcePortId : Str)
    (data : List Byte) : Except Unit (Table × List DispatchAction) :=
  forwardLoop data forwarderSet (getRoutesForSource t sourcePortId) t []

/-- MidiHttpServer::forwardToLocalDestination (src/MidiHttpServer.cpp:48-73):
resolve the destination id against the virtual map (stripping the
virtual: prefix) or the physical map; a missing destination is logged and
the message silently dropped (none). -/
inductive LocalSendTarget where
  | toVirtual (virtualId : Str) (data : List Byte)
  | toPhysical (portId : Str) (data : List Byte)
deriving DecidableEq

def forwardToLocalDestination (physIds vIds : List Str) (destPortId : Str)
    (data : List Byte) : Option LocalSendTarget :=
  if isPrefixB (strL "virtual:") destPortId then
    let virtualId := destPortId.drop 8
    if vIds.contains virtualId then some (.toVirtual virtualId data) else none
  else
    if physIds.contains destPortId then some (.toPhysical destPortId data) else none
instance {ε α : Type} [DecidableEq ε] [DecidableEq α] : DecidableEq (Except ε α) := fun x y =>
  match x, y with
  | .error a, .error b =>
      if h : a = b then isTrue (by rw [h])
      else isFalse (fun hc => h (Except.error.inj hc))
  | .ok a, .ok b =>
      if h : a = b then isTrue (by rw [h])
      else isFalse (fun hc => h (Except.ok.inj hc))
  | .error _, .ok _ => isFalse (fun hc => Except.noConfusion hc)
  | .ok _, .error _ => isFalse (fun hc => Except.noConfusion hc)

theorem nodupIds_cons {x : MidiRoute} {xs : Table} (hnd : NodupIds (x :: xs)) :
    x.id ∉ xs.map (fun r => r.id) ∧ NodupIds xs := by
  have h0 : ((x :: xs).map (fun r => r.id)).Nodup := hnd
  simp only [List.map_cons, List.nodup_cons] at h0
  exact h0

theorem mapIncr_eq_map {t : Table} (hnd : NodupIds t) (k : Str) :
    mapIncr k t =
      t.map (fun r => if r.id = k then { r with messagesForwarded := r.messagesForwarded + 1 }
                      else r) := by
  induction t with
  | nil => rfl
  | cons x xs ih =>
      obtain ⟨hx, hxs⟩ := nodupIds_cons hnd
      by_cases he : x.id = k
      · subst he
        have hmap : xs.map (fun r => if r.id = x.id then
            { r with messagesForwarded := r.messagesForwarded + 1 } else r) = xs := by
          have h1 : ∀ r ∈ xs, (if r.id = x.id then
              { r with messagesForwarded := r.messagesForwarded + 1 } else r) = r := by
            intro r hr
            have hne : r.id ≠ x.id := fun hc => hx (List.mem_map.mpr ⟨r, hr, hc⟩)
            simp [hne]
          calc xs.map _ = xs.map id := List.map_congr_left h1
            _ = xs := List.map_id xs
        simp [mapIncr, hmap]
      · simp [mapIncr, he, ih hxs]

theorem NodupIds_mapIncr {t : Table} (hnd : NodupIds t) (k : Str) :
    NodupIds (mapIncr k t) := by
  rw [mapIncr_eq_map hnd k]
  unfold NodupIds at hnd ⊢
  rw [List.map_map]
  have hc : ((fun r : MidiRoute => r.id) ∘
      (fun r : MidiRoute => if r.id = k then
        { r with messagesForwarded := r.messagesForwarded + 1 } else r)) =
      fun r : MidiRoute => r.id := by
    funext r
    by_cases h : r.id = k <;> simp [h]
  rw [hc]
  exact hnd

theorem id_inj_of_nodup {t : Table} (hnd : NodupIds t) :
    ∀ a ∈ t, ∀ b ∈ t, a.id = b.id → a = b := by
  induction t with
  | nil => intro a ha; simp at ha
  | cons x xs ih =>
      obtain ⟨hx, hxs⟩ := nodupIds_cons hnd
      intro a ha b hb he
      rcases List.mem_cons.mp ha with ha1 | ha2 <;>
        rcases List.mem_cons.mp hb with hb1 | hb2
      · rw [ha1, hb1]
      · exfalso; apply hx
        exact List.mem_map.mpr ⟨b, hb2, by rw [← he, ha1]⟩
      · exfalso; apply hx
        exact List.mem_map.mpr ⟨a, ha2, by rw [he, hb1]⟩
      · exact ih hxs a ha2 b hb2 he

theorem foldl_mapIncr (ks : List Str) :
    ∀ t : Table, NodupIds t → ks.Nodup →
      ks.foldl (fun tt k => mapIncr k tt) t =
        t.map (fun r => if r.id ∈ ks then
          { r with messagesForwarded := r.messagesForwarded + 1 } else r) := by
  induction ks with
  | nil =>
      intro t _ _
      simp
  | cons k ks ih =>
      intro t hnd hks
      have hk : k ∉ ks := (List.nodup_cons.mp hks).1
      have hks2 : ks.Nodup := (List.nodup_cons.mp hks).2
      have h1 : NodupIds (mapIncr k t) := NodupIds_mapIncr hnd k
      calc (k :: ks).foldl (fun tt kk => mapIncr kk tt) t
        = ks.foldl (fun tt kk => mapIncr kk tt) (mapIncr k t) := rfl
        _ = (mapIncr k t).map (fun r => if r.id ∈ ks then
            { r with messagesForwarded := r.messagesForwarded + 1 } else r) := ih _ h1 hks2
        _ = t.map (fun r => if r.id ∈ k :: ks then
            { r with messagesForwarded := r.messagesForwarded + 1 } else r) := by
            rw [mapIncr_eq_map hnd k, List.map_map]
            refine List.map_congr_left ?_
            intro r _
            by_cases he : r.id = k
            · simp [he, hk]
            · by_cases hm : r.id ∈ ks <;> simp [he, hm]

theorem forwardLoop_ok (data : List Byte) (fw : Bool) :
    ∀ (ms : List MidiRoute) (t : Table) (acc : List DispatchAction)
      (out : Table × List DispatchAction),
      forwardLoop data fw ms t acc = .ok out →
      out.1 = ms.foldl (fun tt r => mapIncr r.id tt) t ∧
        out.2 = acc ++ ms.filterMap
          (fun r => ((forwardToDestination r data fw).toOption).join) := by
  intro ms
  induction ms with
  | nil =>
      intro t acc out h
      simp [forwardLoop] at h
      simp [← h]
  | cons r rest ih =>
      intro t acc out h
      simp only [forwardLoop] at h
      cases hfd : forwardToDestination r data fw with
      | error e => rw [hfd] at h; exact absurd h (by simp)
      | ok a =>
          rw [hfd] at h
          have hih := ih (mapIncr r.id t) (acc ++ a.toList) out h
          refine ⟨hih.1, ?_⟩
          rw [hih.2]
          cases a <;> simp [hfd, Except.toOption]

theorem matched_ids_nodup {t : Table} (hnd : NodupIds t) (src : Str) :
    ((getRoutesForSource t src).map (fun r => r.id)).Nodup :=
  hnd.sublist ((List.filter_sublist t).map _)

theorem mem_matched_ids {t : Table} (hnd : NodupIds t) (src : Str) (r : MidiRoute)
    (hr : r ∈ t) :
    (r.id ∈ (getRoutesForSource t src).map (fun q => q.id)) ↔
      (r.enabled = true ∧ r.source.portId = src) := by
  constructor
  · rintro hmem
    simp only [List.mem_map] at hmem
    obtain ⟨m, hm, hid⟩ := hmem
    have hmt : m ∈ t := List.mem_of_mem_filter hm
    have heq : m = r := id_inj_of_nodup hnd m hmt r hr hid
    subst heq
    have hp := List.of_mem_filter hm
    simpa using hp
  · intro hp
    have hmem : r ∈ getRoutesForSource t src := by
      refine List.mem_filter.mpr ⟨hr, ?_⟩
      simp [hp.1, hp.2]
    exact List.mem_map.mpr ⟨r, hmem, rfl⟩

theorem mapFind_mapSetEnabled (t : Table) (k : Str) (e : Bool) :
    mapFind (mapSetEnabled k e t) k =
      (mapFind t k).map (fun r => { r with enabled := e }) := by
  induction t with
  | nil => rfl
  | cons x xs ih =>
      by_cases he : x.id = k
      · simp [mapSetEnabled, mapFind, List.find?, he]
      · simp only [mapSetEnabled, he, if_false, mapFind] at ih ⊢
        rw [List.find?_cons_of_neg _ (by simp [he]), List.find?_cons_of_neg _ (by simp [he])]
        exact ih

/-- C3 (amended): whenever forwardMessage completes without an exception
(see C8 for the exception case), exactly the enabled routes whose
source.portId matches are dispatched, each matched route's
messagesForwarded is incremented by exactly one while every other route is
left entirely unchanged, and disabling then re-enabling a route preserves
its messagesForwarded counter. -/
theorem C3_forwardMessage_counts (t : Table) (hnd : NodupIds t) (fw : Bool)
    (src : Str) (data : List Byte) (out : Table × List DispatchAction)
    (hok : forwardMessage t fw src data = .ok out)
    (k : Str) (r : MidiRoute) (hfind : mapFind t k = some r) :
    out.1 = t.map (fun q => if q.enabled = true ∧ q.source.portId = src then
        { q with messagesForwarded := q.messagesForwarded + 1 } else q) ∧
      out.2 = (getRoutesForSource t src).filterMap
        (fun q => ((forwardToDestination q data fw).toOption).join) ∧
      mapFind ((setRouteEnabled (setRouteEnabled t k false).1 k true).1) k =
        some { r with enabled := true } := by
  obtain ⟨h1, h2⟩ := forwardLoop_ok data fw (getRoutesForSource t src) t [] out hok
  refine ⟨?_, by simpa using h2, ?_⟩
  · rw [h1]
    have hfm := List.foldl_map (fun q : MidiRoute => q.id)
      (fun tt kk => mapIncr kk tt) (getRoutesForSource t src) t
    rw [← hfm, foldl_mapIncr _ t hnd (matched_ids_nodup hnd src)]
    refine List.map_congr_left ?_
    intro q hq
    by_cases hcond : q.enabled = true ∧ q.source.portId = src
    · rw [if_pos ((mem_matched_ids hnd src q hq).mpr hcond), if_pos hcond]
    · rw [if_neg (fun hmem => hcond ((mem_matched_ids hnd src q hq).mp hmem)),
        if_neg hcond]
  · have hs1 : (mapFind t k).isSome := by rw [hfind]; rfl
    simp only [setRouteEnabled, hs1, if_true]
    have hf2 : mapFind (mapSetEnabled k false t) k = some { r with enabled := false } := by
      rw [mapFind_mapSetEnabled, hfind]; rfl
    have hs2 : (mapFind (mapSetEnabled k false t) k).isSome := by rw [hf2]; rfl
    simp only [hs2, if_true]
    rw [mapFind_mapSetEnabled, hf2]
    rfl

/-- Concrete fixture: an enabled route from src to a local destination. -/
def wRouteA : MidiRoute :=
  ⟨strL "a", true, ⟨[], strL "src", []⟩, ⟨[], strL "out1", []⟩, 5⟩

/-- Concrete fixture: a disabled route from src. -/
def wRouteB : MidiRoute :=
  ⟨strL "b", false, ⟨[], strL "src", []⟩, ⟨[], strL "out2", []⟩, 7⟩

/-- Witness for C3 at a two-route table: the enabled matching route is
dispatched locally and counted once; the disabled one is untouched. -/
theorem C3_forwardMessage_counts_witness :
    forwardMessage [wRouteA, wRouteB] true (strL "src") [144, 60, 127] =
      .ok ([{ wRouteA with messagesForwarded := 6 }, wRouteB],
           [.localSend (strL "out1") [144, 60, 127]]) ∧
    mapFind ((setRouteEnabled (setRouteEnabled [wRouteA, wRouteB] (strL "a") false).1
        (strL "a") true).1) (strL "a") = some { wRouteA with enabled := true } := by
  have h := C3_forwardMessage_counts [wRouteA, wRouteB] (by decide) true (strL "src")
    [144, 60, 127]
    ([{ wRouteA with messagesForwarded := 6 }, wRouteB],
     [.localSend (strL "out1") [144, 60, 127]]) (by decide) (strL "a") wRouteA (by decide)
  exact ⟨by decide, h.2.2⟩

/-- C8 (code bug evidence): a route whose destination serverUrl has a
non-numeric port makes forwardMessage propagate an exception
(std::stoi throws std::invalid_argument inside forwardToRemoteServer,
RouteManager.h:419, and no handler exists on the routing hot path). -/
theorem C8_forwardMessage_throws :
    forwardMessage
      [⟨strL "r1", true, ⟨[], strL "src", []⟩, ⟨strL "http://host:x", strL "p", []⟩, 0⟩]
      true (strL "src") [144] = .error () := by
  decide

theorem mapFind_mem {t : Table} {k : Str} {m : MidiRoute} (h : mapFind t k = some m) :
    m ∈ t ∧ m.id = k := by
  have h1 := List.mem_of_find?_eq_some h
  have h2 := List.find?_some h
  exact ⟨h1, by simpa using h2⟩

theorem mapFind_mapInsert_self (r : MidiRoute) (t : Table) :
    mapFind (mapInsert r t) r.id = some r := by
  induction t with
  | nil => simp [mapInsert, mapFind, List.find?]
  | cons x xs ih =>
      by_cases hlt : strLt r.id x.id = true
      · simp [mapInsert, hlt, mapFind, List.find?]
      · by_cases he : r.id = x.id
        · simp [mapInsert, hlt, he, mapFind, List.find?, strLt_irrefl]
        · have hne : (x.id == r.id) = false := by
            simp
            exact fun hc => he hc.symm
          have hstep : mapInsert r (x :: xs) = x :: mapInsert r xs := by
            simp [mapInsert, hlt, he]
          rw [hstep]
          show List.find? (fun q => q.id == r.id) (x :: mapInsert r xs) = some r
          rw [List.find?_cons_of_neg _ (by simp [hne])]
          exact ih

theorem mapInsert_length (r : MidiRoute) :
    ∀ (t : Table), TableSorted t → ∀ old, mapFind t r.id = some old →
      (mapInsert r t).length = t.length := by
  intro t
  induction t with
  | nil =>
      intro _ old hfind
      simp [mapFind, List.find?] at hfind
  | cons x xs ih =>
      intro hs old hfind
      have hsx : TableSorted xs := (List.pairwise_cons.mp hs).2
      have hall : ∀ y ∈ xs, strLt x.id y.id = true := (List.pairwise_cons.mp hs).1
      by_cases he : r.id = x.id
      · have hlt : ¬ (strLt r.id x.id = true) := by
          rw [he, strLt_irrefl]
          simp
        simp [mapInsert, hlt, he, strLt_irrefl]
      · have hne : ¬ ((x.id == r.id) = true) := by
          simp
          exact fun hc => he hc.symm
        have hfx : mapFind xs r.id = some old := by
          have hstep := List.find?_cons_of_neg (l := xs) (a := x)
            (p := fun q => q.id == r.id) hne
          simpa [mapFind, hstep] using hfind
        obtain ⟨hmem, hid⟩ := mapFind_mem hfx
        have hxr : strLt x.id r.id = true := by
          rw [← hid]
          exact hall old hmem
        have hlt : ¬ (strLt r.id x.id = true) := by
          rw [strLt_asymm hxr]
          simp
        simp [mapInsert, hlt, he, ih hsx old hfx]

/-- C9: a call to addRoute with a prespecified id equal to the id of a route
already in the table succeeds (returns that id, reporting no error),
silently replaces the existing route with the new one (fresh endpoints and
enabled flag, messagesForwarded reset to 0), and does not grow the table. -/
theorem C9_addRoute_replaces (t : Table) (hs : TableSorted t) (x : Str) (hx : x ≠ [])
    (old : MidiRoute) (hfind : mapFind t x = some old)
    (src dst : RouteEndpoint) (en : Bool) (gen : Str) :
    (addRoute t src dst en x gen).2 = x ∧
      (addRoute t src dst en x gen).1.length = t.length ∧
      mapFind (addRoute t src dst en x gen).1 x = some ⟨x, en, src, dst, 0⟩ := by
  have hrid : (if x = [] then gen else x) = x := if_neg hx
  have h2 : (addRoute t src dst en x gen).1 = mapInsert ⟨x, en, src, dst, 0⟩ t := by
    simp [addRoute, hrid]
  have h3 : (addRoute t src dst en x gen).2 = x := by
    simp [addRoute, hrid]
  refine ⟨h3, ?_, ?_⟩
  · rw [h2]
    exact mapInsert_length ⟨x, en, src, dst, 0⟩ t hs old hfind
  · rw [h2]
    exact mapFind_mapInsert_self ⟨x, en, src, dst, 0⟩ t

/-- Witness for C9: replacing route a in the two-route fixture table. -/
theorem C9_addRoute_replaces_witness :
    (addRoute [wRouteA, wRouteB] ⟨[], strL "s2", []⟩ ⟨[], strL "d2", []⟩ false
        (strL "a") (strL "gen")).2 = strL "a" ∧
      (addRoute [wRouteA, wRouteB] ⟨[], strL "s2", []⟩ ⟨[], strL "d2", []⟩ false
        (strL "a") (strL "gen")).1.length = 2 ∧
      mapFind (addRoute [wRouteA, wRouteB] ⟨[], strL "s2", []⟩ ⟨[], strL "d2", []⟩ false
        (strL "a") (strL "gen")).1 (strL "a") =
        some ⟨strL "a", false, ⟨[], strL "s2", []⟩, ⟨[], strL "d2", []⟩, 0⟩ := by
  have h := C9_addRoute_replaces [wRouteA, wRouteB] (by decide) (strL "a") (by decide)
    wRouteA (by decide) ⟨[], strL "s2", []⟩ ⟨[], strL "d2", []⟩ false (strL "gen")
  exact ⟨h.1, by decide, h.2.2⟩

theorem forwardLoop_local_noforwarder (data : List Byte) :
    ∀ (ms : List MidiRoute) (t : Table) (acc : List DispatchAction),
      (∀ q ∈ ms, isLocalDestination q.destination.serverUrl = true) →
      forwardLoop data false ms t acc =
        .ok (ms.foldl (fun tt r => mapIncr r.id tt) t, acc) := by
  intro ms
  induction ms with
  | nil => intro t acc _; rfl
  | cons r rest ih =>
      intro t acc h
      have hr : isLocalDestination r.destination.serverUrl = true := h r (by simp)
      have hfd : forwardToDestination r data false = .ok none := by
        simp [forwardToDestination, hr]
      simp only [forwardLoop, hfd]
      simpa using ih (mapIncr r.id t) acc (fun q hq => h q (by simp [hq]))

/-- C10: the messagesForwarded counter counts route matches, not successful
deliveries.  With the local forwarder callback unset, every enabled
matching (local-destination) route still gets its counter incremented by
one while nothing at all is dispatched; and when the local forwarder runs
but the destination portId resolves to no registered port,
forwardToLocalDestination drops the message (none) after the counter was
already counted. -/
theorem C10_counter_counts_matches (t : Table) (hnd : NodupIds t) (src : Str)
    (data : List Byte)
    (hloc : ∀ q ∈ getRoutesForSource t src,
      isLocalDestination q.destination.serverUrl = true)
    (physIds vIds : List Str) (destPortId : Str)
    (hv : isPrefixB (strL "virtual:") destPortId = true →
      vIds.contains (destPortId.drop 8) = false)
    (hp : isPrefixB (strL "virtual:") destPortId = false →
      physIds.contains destPortId = false) :
    forwardMessage t false src data =
      .ok (t.map (fun q => if q.enabled = true ∧ q.source.portId = src then
          { q with messagesForwarded := q.messagesForwarded + 1 } else q), []) ∧
      forwardToLocalDestination physIds vIds destPortId data = none := by
  constructor
  · unfold forwardMessage
    rw [forwardLoop_local_noforwarder data _ t [] hloc]
    have htab : (getRoutesForSource t src).foldl (fun tt r => mapIncr r.id tt) t =
        t.map (fun q => if q.enabled = true ∧ q.source.portId = src then
          { q with messagesForwarded := q.messagesForwarded + 1 } else q) := by
      have hfm := List.foldl_map (fun q : MidiRoute => q.id)
        (fun tt kk => mapIncr kk tt) (getRoutesForSource t src) t
      rw [← hfm, foldl_mapIncr _ t hnd (matched_ids_nodup hnd src)]
      refine List.map_congr_left ?_
      intro q hq
      by_cases hcond : q.enabled = true ∧ q.source.portId = src
      · rw [if_pos ((mem_matched_ids hnd src q hq).mpr hcond), if_pos hcond]
      · rw [if_neg (fun hmem => hcond ((mem_matched_ids hnd src q hq).mp hmem)),
          if_neg hcond]
    rw [htab]
  · unfold forwardToLocalDestination
    by_cases hpre : isPrefixB (strL "virtual:") destPortId = true
    · have hmem := hv hpre
      simp at hmem
      simp [hpre, hmem]
    · have hpre2 : isPrefixB (strL "virtual:") destPortId = false := by
        simpa using hpre
      have hmem := hp hpre2
      simp at hmem
      simp [hpre2, hmem]

/-- Witness for C10: one enabled matching local route, forwarder unset, and
an unregistered destination port. -/
theorem C10_counter_counts_matches_witness :
    forwardMessage [wRouteA] false (strL "src") [144] =
      .ok ([{ wRouteA with messagesForwarded := 6 }], []) ∧
      forwardToLocalDestination [strL "p1"] [] (strL "nosuch") [144] = none := by
  have h := C10_counter_counts_matches [wRouteA] (by decide) (strL "src") [144]
    (by decide) [strL "p1"] [] (strL "nosuch") (by decide) (by decide)
  exact ⟨by decide, h.2⟩

/-- C3 counterexample: with a matched enabled route whose destination URL
has an empty port after the colon, forwardMessage does not run to
completion (std::stoi throws), so the matched route is neither dispatched
nor counted, contradicting the claim as universally stated. -/
theorem C3_forwardMessage_counts_counterexample :
    forwardMessage
      [⟨strL "r1", true, ⟨[], strL "src", []⟩, ⟨strL "http://host:", strL "p", []⟩, 0⟩]
      true (strL "src") [144] = Except.error () := by
  decide

theorem isDigitC_ne {c : Char} (h : isDigitC c = true) {d : Char}
    (hd : isDigitC d = false) : c ≠ d := by
  intro hc
  rw [hc, hd] at h
  cases h

theorem isCppSpace_of_digit {c : Char} (h : isDigitC c = true) : isCppSpace c = false := by
  have h1 : c ≠ ' ' := isDigitC_ne h (by decide)
  have h2 : c ≠ '\t' := isDigitC_ne h (by decide)
  have h3 : c ≠ '\n' := isDigitC_ne h (by decide)
  have h4 : c ≠ '\x0b' := isDigitC_ne h (by decide)
  have h5 : c ≠ '\x0c' := isDigitC_ne h (by decide)
  have h6 : c ≠ '\r' := isDigitC_ne h (by decide)
  simp [isCppSpace, h1, h2, h3, h4, h5, h6]

theorem takeWhile_all {p : Char → Bool} (l : Str) (h : ∀ c ∈ l, p c = true) :
    l.takeWhile p = l := by
  induction l with
  | nil => rfl
  | cons c r ih =>
      have hc := h c (by simp)
      simp [List.takeWhile_cons, hc, ih (fun d hd => h d (by simp [hd]))]

theorem stoiOpt_digits (ds : Str) (hne : ds ≠ []) (hall : ∀ c ∈ ds, isDigitC c = true)
    (hb : (digitsToNat ds : Int) ≤ 2147483647) :
    stoiOpt ds = some (digitsToNat ds) := by
  obtain ⟨d, r, rfl⟩ := List.exists_cons_of_ne_nil hne
  have hd := hall d (by simp)
  have hds : isCppSpace d = false := isCppSpace_of_digit hd
  have hdm : d ≠ '-' := isDigitC_ne hd (by decide)
  have hdp : d ≠ '+' := isDigitC_ne hd (by decide)
  have hdrop : (d :: r).dropWhile isCppSpace = d :: r := by
    simp [List.dropWhile_cons, hds]
  have htake : (d :: r).takeWhile isDigitC = d :: r := takeWhile_all _ hall
  unfold stoiOpt
  simp only [hdrop, List.head?_cons, htake]
  have hno : ¬ (some d = some '-' ∨ some d = some '+') := by
    simp [hdm, hdp]
  simp only [hno, if_false]
  simp only [htake]
  have hcond : ¬ ((digitsToNat (d :: r) : Int) < -2147483648 ∨
      2147483647 < (digitsToNat (d :: r) : Int)) := by
    omega
  simp [hdm, hcond]
  omega

theorem drop_head_append (A X : Str) (n : Nat) (hn : A.length = n) :
    (A ++ X).drop n = X := by
  rw [← hn]
  exact List.drop_left A X

/-- C7 counterexample: for destination serverUrl http://h/a:1 (a colon in the
path, no explicit port) the claim prescribes host h, port 80 and the path
component ignored, but forwardToRemoteServer splits at the first colon and
enqueues on host "h/a" with port 1. -/
theorem C7_remote_enqueue_counterexample :
    forwardToRemoteServer ⟨strL "http://h/a:1", strL "p", []⟩ [144] ≠
      .ok ⟨strL "h", 80, strL "/port/p/send", strL "\x7b\"message\":[144]\x7d"⟩ ∧
    forwardToRemoteServer ⟨strL "http://h/a:1", strL "p", []⟩ [144] =
      .ok ⟨strL "h/a", 1, strL "/port/p/send", strL "\x7b\"message\":[144]\x7d"⟩ := by
  constructor
  · decide
  · decide

/-- C7 (amended): for every route whose destination serverUrl has the
well-formed shape http://host[:port][/path] — host free of colons and
slashes, the optional port a nonempty digit string whose value fits int,
and, when no port is given, the path free of colons — forwarding parses
host and port (defaulting to 80), ignores the path component, and enqueues
on the RemoteForwarder for that host:port the path /virtual/{id}/send with
the virtual: prefix stripped when the destination portId has it and
/port/{portId}/send otherwise, with body listing the message bytes as
decimal integers in order. -/
theorem C7_remote_enqueue (host : Str) (portDigits : Option Str) (rest : Str)
    (portId portName : Str) (data : List Byte)
    (hhost : ∀ c ∈ host, c ≠ ':' ∧ c ≠ '/')
    (hrest : rest = [] ∨ rest.head? = some '/')
    (hdig : ∀ ds ∈ portDigits, ds ≠ [] ∧ (∀ c ∈ ds, isDigitC c = true) ∧
      (digitsToNat ds : Int) ≤ 2147483647)
    (hnocolon : portDigits = none → ∀ c ∈ rest, c ≠ ':') :
    forwardToRemoteServer
      ⟨strL "http://" ++ host ++
        (match portDigits with | some ds => ':' :: ds | none => []) ++ rest,
       portId, portName⟩ data =
      .ok ⟨host,
        (match portDigits with | some ds => (digitsToNat ds : Int) | none => 80),
        (if isPrefixB (strL "virtual:") portId then
          strL "/virtual/" ++ portId.drop 8 ++ strL "/send"
         else strL "/port/" ++ portId ++ strL "/send"),
        strL "\x7b\"message\":[" ++ joinComma (data.map (fun b => strL (toString b))) ++
          strL "]\x7d"⟩ := by
  cases portDigits with
  | some ds =>
      obtain ⟨hdne, hdall, hdb⟩ := hdig ds (by simp)
      have hurl : strL "http://" ++ host ++ (':' :: ds) ++ rest =
          strL "http://" ++ ((host ++ [':'] ++ ds) ++ rest) := by
        simp [List.append_assoc]
      have hstrip : (strL "http://" ++ ((host ++ [':'] ++ ds) ++ rest)).drop 7 =
          (host ++ [':'] ++ ds) ++ rest :=
        drop_head_append _ _ 7 rfl
      have hpre : isPrefixB (strL "http://")
          (strL "http://" ++ ((host ++ [':'] ++ ds) ++ rest)) = true :=
        isPrefixB_append_self _ _
      have hcolon : findIdxChar ':' ((host ++ [':'] ++ ds) ++ rest) = some host.length := by
        have hshape : (host ++ [':'] ++ ds) ++ rest = host ++ (':' :: (ds ++ rest)) := by
          simp [List.append_assoc]
        rw [hshape,
          findIdxChar_append_not_mem ':' host _ (fun a ha => (hhost a ha).1),
          findIdxChar_cons_self]
        simp
      have hdnoslash : ∀ c ∈ ds, c ≠ '/' := fun c hc => isDigitC_ne (hdall c hc) (by decide)
      rcases hrest with hr0 | hr1
      · -- no path after the port
        subst hr0
        have hslash : findIdxChar '/' ((host ++ [':'] ++ ds) ++ []) = none := by
          refine findIdxChar_eq_none '/' _ ?_
          intro a ha
          simp at ha
          rcases ha with ha | ha | ha
          · exact (hhost a ha).2
          · subst ha; decide
          · exact hdnoslash a ha
        have hlen : ((host ++ [':'] ++ ds) ++ ([] : Str)).length =
            host.length + 1 + ds.length := by
          simp
          omega
        have hsub : cppSubstr ((host ++ [':'] ++ ds) ++ []) (host.length + 1)
            (host.length + 1 + ds.length - (host.length + 1)) = ds := by
          unfold cppSubstr
          have hshape : (host ++ [':'] ++ ds) ++ ([] : Str) = (host ++ [':']) ++ ds := by
            simp
          rw [hshape, drop_head_append (host ++ [':']) ds (host.length + 1) (by simp)]
          have hn : host.length + 1 + ds.length - (host.length + 1) = ds.length := by omega
          rw [hn, List.take_length]
        have htake : ((host ++ [':'] ++ ds) ++ ([] : Str)).take host.length = host := by
          have hshape : (host ++ [':'] ++ ds) ++ ([] : Str) = host ++ ([':'] ++ ds) := by
            simp [List.append_assoc]
          rw [hshape]
          exact List.take_left' rfl
        unfold forwardToRemoteServer
        rw [hurl]
        simp only [hpre, if_true, hstrip, hcolon, hslash]
        simp only [hlen]
        rw [if_pos (by omega : host.length + 1 ≤ host.length + 1 + ds.length)]
        rw [hsub, stoiOpt_digits ds hdne hdall hdb, htake]
        simp [remotePath, messageBody, List.append_assoc]
      · -- a path component follows
        obtain ⟨r2, hr2⟩ : ∃ r2, rest = '/' :: r2 := by
          cases rest with
          | nil => cases hr1
          | cons a r2 =>
              simp at hr1
              exact ⟨r2, by rw [hr1]⟩
        subst hr2
        have hslash : findIdxChar '/' ((host ++ [':'] ++ ds) ++ ('/' :: r2)) =
            some (host.length + 1 + ds.length) := by
          have hnos : ∀ a ∈ host ++ [':'] ++ ds, a ≠ '/' := by
            intro a ha
            simp at ha
            rcases ha with ha | ha | ha
            · exact (hhost a ha).2
            · subst ha; decide
            · exact hdnoslash a ha
          rw [findIdxChar_append_not_mem '/' _ _ hnos, findIdxChar_cons_self]
          simp
          omega
        have hsub : cppSubstr ((host ++ [':'] ++ ds) ++ ('/' :: r2)) (host.length + 1)
            (host.length + 1 + ds.length - (host.length + 1)) = ds := by
          unfold cppSubstr
          have hshape : (host ++ [':'] ++ ds) ++ ('/' :: r2) =
              (host ++ [':']) ++ (ds ++ '/' :: r2) := by
            simp [List.append_assoc]
          rw [hshape,
            drop_head_append (host ++ [':']) (ds ++ '/' :: r2) (host.length + 1) (by simp)]
          have hn : host.length + 1 + ds.length - (host.length + 1) = ds.length := by omega
          rw [hn]
          exact List.take_left' rfl
        have htake : ((host ++ [':'] ++ ds) ++ ('/' :: r2)).take host.length = host := by
          have hshape : (host ++ [':'] ++ ds) ++ ('/' :: r2) =
              host ++ ([':'] ++ ds ++ '/' :: r2) := by
            simp [List.append_assoc]
          rw [hshape]
          exact List.take_left' rfl
        unfold forwardToRemoteServer
        rw [hurl]
        simp only [hpre, if_true, hstrip, hcolon, hslash]
        rw [if_pos (by omega : host.length + 1 ≤ host.length + 1 + ds.length)]
        rw [hsub, stoiOpt_digits ds hdne hdall hdb, htake]
        simp [remotePath, messageBody, List.append_assoc]
  | none =>
      have hnc := hnocolon rfl
      have hurl : strL "http://" ++ host ++ ([] : Str) ++ rest =
          strL "http://" ++ (host ++ rest) := by
        simp [List.append_assoc]
      have hstrip : (strL "http://" ++ (host ++ rest)).drop 7 = host ++ rest :=
        drop_head_append _ _ 7 rfl
      have hpre : isPrefixB (strL "http://") (strL "http://" ++ (host ++ rest)) = true :=
        isPrefixB_append_self _ _
      have hcolon : findIdxChar ':' (host ++ rest) = none := by
        refine findIdxChar_eq_none ':' _ ?_
        intro a ha
        rcases List.mem_append.mp ha with ha | ha
        · exact (hhost a ha).1
        · exact hnc a ha
      rcases hrest with hr0 | hr1
      · subst hr0
        unfold forwardToRemoteServer
        rw [hurl]
        simp only [hpre, if_true, hstrip, hcolon]
        have hslash : findIdxChar '/' (host ++ ([] : Str)) = none := by
          refine findIdxChar_eq_none '/' _ ?_
          intro a ha
          simp at ha
          exact (hhost a ha).2
        simp only [hslash]
        simp [remotePath, messageBody, List.append_assoc]
      · obtain ⟨r2, hr2⟩ : ∃ r2, rest = '/' :: r2 := by
          cases rest with
          | nil => cases hr1
          | cons a r2 =>
              simp at hr1
              exact ⟨r2, by rw [hr1]⟩
        subst hr2
        unfold forwardToRemoteServer
        rw [hurl]
        simp only [hpre, if_true, hstrip, hcolon]
        have hslash : findIdxChar '/' (host ++ ('/' :: r2)) = some host.length := by
          rw [findIdxChar_append_not_mem '/' host _ (fun a ha => (hhost a ha).2),
            findIdxChar_cons_self]
          simp
        simp only [hslash]
        rw [List.take_left' rfl]
        simp [remotePath, messageBody, List.append_assoc]

/-- Witness for C7: host peer, port 8080, path /x, virtual destination. -/
theorem C7_remote_enqueue_witness :
    forwardToRemoteServer
      ⟨strL "http://peer:8080/x", strL "virtual:vi2", []⟩ [144, 60] =
      .ok ⟨strL "peer", 8080, strL "/virtual/vi2/send",
        strL "\x7b\"message\":[144,60]\x7d"⟩ := by
  have h := C7_remote_enqueue (strL "peer") (some (strL "8080")) (strL "/x")
    (strL "virtual:vi2") [] [144, 60]
    (by decide) (by right; decide) (by decide) (by intro hc; cases hc)
  have hshape : strL "http://" ++ strL "peer" ++ (':' :: strL "8080") ++ strL "/x" =
      strL "http://peer:8080/x" := by decide
  rw [hshape] at h
  rw [h]
  decide

/-! HTTP POST /port/:portId/send handler (src/MidiHttpServer.cpp:187-255). -/

/-- Response observed by the HTTP client: status code, the success field of
the JSON body when present, and the message handed to MidiPort::sendMessage
when the handler reaches the send. -/
structure SendResponse where
  status : Nat
  success : Option Bool
  sent : Option (List Byte)
deriving DecidableEq

/-- (uint8_t)std::stoi(token): the int truncated to an unsigned byte. -/
def toUInt8 (v : Int) : Byte := (v % 256).toNat

/-- The message-array parse of the send handler (MidiHttpServer.cpp:201-216):
find "message":[ and the closing bracket, split the slice on commas,
std::stoi each non-empty token and truncate to uint8_t.  none models
std::stoi throwing (the handler catches it and responds 400).  When the
key is absent the message stays empty. -/
def parseMessage (body : Str) : Option (List Byte) :=
  match findSub (strL "\"message\":[") body with
  | none => some []
  | some msgPos =>
      let start := msgPos + 11
      let msgStr :=
        match findCharFrom body ']' start with
        | some endPos => cppSubstr body start (endPos - start)
        | none => body.drop start
      let toks := (msgStr.splitOn ',').filter (fun tk => !tk.isEmpty)
      toks.foldr (fun tk acc => match stoiOpt tk, acc with
        | some v, some l => some (toUInt8 v :: l)
        | _, _ => none) (some [])

/-- The POST /port/:portId/send handler (src/MidiHttpServer.cpp:187-255).
ports is the key set of the physical ports map (only successfully opened
ports are ever inserted, MidiHttpServer.cpp:158-161). -/
def postPortSend (ports : List Str) (portId : Str) (body : Str) : SendResponse :=
  if ¬ ports.contains portId then ⟨404, none, none⟩
  else
    match parseMessage body with
    | none => ⟨400, none, none⟩
    | some message =>
        if message = [] then ⟨400, some false, none⟩
        else if message.length = 1 ∧ message.head? = some 240 then ⟨400, some false, none⟩
        else ⟨200, some true, some message⟩

/-- C6 counterexample: for an open port and the SysEx-missing-its-0xF7
message [F0 01 02] the claim prescribes 400 with success:false, but the
handler answers 200 with success:true (the message is then dropped with a
logged warning inside sendMessage, which transmits nothing). -/
theorem C6_send_handler_counterexample :
    postPortSend [strL "p"] (strL "p") (strL "\x7b\"message\":[240,1,2]\x7d") ≠
      ⟨400, some false, none⟩ ∧
    postPortSend [strL "p"] (strL "p") (strL "\x7b\"message\":[240,1,2]\x7d") =
      ⟨200, some true, some [240, 1, 2]⟩ ∧
    midiPortSendMessage true [240, 1, 2] = none := by
  refine ⟨by decide, by decide, by decide⟩

/-- C6 (amended): POST /port/portId/send returns 404 exactly when portId is
not an open physical port; when the port exists it returns 400 with
success:false exactly for an empty message and for a lone 0xF0 byte (plus a
plain 400 when token parsing throws); every other message — including a
SysEx missing its terminating 0xF7 and wrong-length short messages — gets
success:true and is handed to sendMessage, which silently drops invalid
framing at the port layer. -/
theorem C6_send_handler (ports : List Str) (portId : Str) (body : Str) :
    (¬ ports.contains portId = true →
      postPortSend ports portId body = ⟨404, none, none⟩) ∧
    (ports.contains portId = true →
      (parseMessage body = none → postPortSend ports portId body = ⟨400, none, none⟩) ∧
      (∀ message, parseMessage body = some message →
        postPortSend ports portId body =
          (if message = [] ∨ message = [240] then ⟨400, some false, none⟩
           else ⟨200, some true, some message⟩))) := by
  refine ⟨?_, ?_⟩
  · intro h
    have hmem : portId ∉ ports := by simpa using h
    simp [postPortSend, hmem]
  · intro h
    have hmem : portId ∈ ports := by simpa using h
    refine ⟨?_, ?_⟩
    · intro hp
      simp [postPortSend, hmem, hp]
    · intro message hp
      simp only [postPortSend, h, not_true, if_false, hp]
      by_cases hempty : message = []
      · simp [hempty]
      · have hiff : (message.length = 1 ∧ message.head? = some 240) ↔ message = [240] := by
          constructor
          · rintro ⟨h1, h2⟩
            cases message with
            | nil => cases hempty rfl
            | cons a l =>
                simp at h2
                cases l with
                | nil => rw [h2]
                | cons b l2 => simp at h1
          · rintro rfl
            exact ⟨rfl, rfl⟩
        by_cases h240 : message = [240]
        · simp [hempty, h240, hiff]
        · have hno : ¬ (message.length = 1 ∧ message.head? = some 240) := by
            rw [hiff]; exact h240
          simp [hempty, h240, hno]

/-- Witness for C6: an open port receiving a valid two-byte message. -/
theorem C6_send_handler_witness :
    postPortSend [strL "p"] (strL "p") (strL "\x7b\"message\":[144,60]\x7d") =
      ⟨200, some true, some [144, 60]⟩ := by
  have h := (C6_send_handler [strL "p"] (strL "p")
    (strL "\x7b\"message\":[144,60]\x7d")).2 (by decide)
  have h2 := h.2 [144, 60] (by decide)
  rw [h2]
  decide

/-! Persistence (src/RouteManager.h:451-488 saveToDiskUnlocked,
261-347 loadFromDisk, 567-602 extractJsonString / extractJsonBool).
The file content is modelled as Str. -/

/-- escapeJson (src/RouteManager.h:490-503), one character. -/
def escChar (c : Char) : Str :=
  if c = '"' then ['\\', '"']
  else if c = '\\' then ['\\', '\\']
  else if c = '\n' then ['\\', 'n']
  else if c = '\r' then ['\\', 'r']
  else if c = '\t' then ['\\', 't']
  else [c]

/-- escapeJson (src/RouteManager.h:490-503). -/
def escapeJson (v : Str) : Str := v.foldr (fun c acc => escChar c ++ acc) []

/-- A JSON-quoted escaped value as saveToDiskUnlocked writes it. -/
def qesc (v : Str) : Str := '"' :: escapeJson v ++ ['"']

/-- The text of one route object as written by saveToDiskUnlocked
(RouteManager.h:470-483), without the four-space indent before the opening
brace; the concatenation below reproduces the file stream exactly, grouping
each escaped value with its surrounding quotes. -/
def objChars (r : MidiRoute) : Str :=
  strL "\x7b\n      \"id\": " ++ qesc r.id ++
  strL ",\n      \"enabled\": " ++ (if r.enabled then strL "true" else strL "false") ++
  strL ",\n      \"source\": \x7b\n        \"serverUrl\": " ++ qesc r.source.serverUrl ++
  strL ",\n        \"portId\": " ++ qesc r.source.portId ++
  strL ",\n        \"portName\": " ++ qesc r.source.portName ++
  strL "\n      \x7d,\n      \"destination\": \x7b\n        \"serverUrl\": " ++
    qesc r.destination.serverUrl ++
  strL ",\n        \"portId\": " ++ qesc r.destination.portId ++
  strL ",\n        \"portName\": " ++ qesc r.destination.portName ++
  strL "\n      \x7d\n    \x7d"

/-- The route objects joined by ",\n", each preceded by its indent
(RouteManager.h:465-468: the separator is written before every object but
the first). -/
def saveBody : List MidiRoute → Str
  | [] => []
  | [r] => strL "    " ++ objChars r
  | r :: r2 :: rs => strL "    " ++ objChars r ++ strL ",\n" ++ saveBody (r2 :: rs)

/-- The whole file content written by saveToDiskUnlocked
(RouteManager.h:463 header, 465-484 objects, 486 footer). -/
def saveRoutes (t : Table) : Str :=
  strL "\x7b\n  \"routes\": [\n" ++ saveBody t ++ strL "\n  ]\n\x7d\n"

/-- extractJsonString (src/RouteManager.h:567-584): find "key": (falling
back to "key": with a trailing space), then the value between the next two
double quotes. -/
def extractJsonString (json : Str) (key : Str) : Str :=
  let sk1 : Str := '"' :: key ++ ['"', ':']
  let found : Option (Nat × Nat) :=
    match findSub sk1 json with
    | some kp => some (kp, sk1.length)
    | none =>
        let sk2 : Str := '"' :: key ++ ['"', ':', ' ']
        match findSub sk2 json with
        | some kp => some (kp, sk2.length)
        | none => none
  match found with
  | none => []
  | some (kp, klen) =>
      match findCharFrom json '"' (kp + klen) with
      | none => []
      | some vs =>
          match findCharFrom json '"' (vs + 1) with
          | none => []
          | some ve => cppSubstr json (vs + 1) (ve - vs - 1)

/-- extractJsonBool (src/RouteManager.h:586-602): find "key":, skip spaces
and tabs, and compare the next four characters with "true". -/
def extractJsonBool (json : Str) (key : Str) : Bool :=
  let sk1 : Str := '"' :: key ++ ['"', ':']
  let found : Option (Nat × Nat) :=
    match findSub sk1 json with
    | some kp => some (kp, sk1.length)
    | none =>
        let sk2 : Str := '"' :: key ++ ['"', ':', ' ']
        match findSub sk2 json with
        | some kp => some (kp, sk2.length)
        | none => none
  match found with
  | none => false
  | some (kp, klen) =>
      let vs := kp + klen
      let vs2 := vs + ((json.drop vs).takeWhile (fun c => c == ' ' || c == '\t')).length
      cppSubstr json vs2 4 = strL "true"

/-- Endpoint parsing inside loadFromDisk (RouteManager.h:312-336): find the
key, the following opening brace, the first closing brace after it, and
extract the three fields from that slice; on any miss the endpoint stays
default-constructed (empty strings). -/
def parseEndpoint (objStr : Str) (key : Str) : RouteEndpoint :=
  match findSub ('"' :: key ++ ['"']) objStr with
  | none => ⟨[], [], []⟩
  | some ks =>
      match findCharFrom objStr '\x7b' ks with
      | none => ⟨[], [], []⟩
      | some bs =>
          match findCharFrom objStr '\x7d' bs with
          | none => ⟨[], [], []⟩
          | some be =>
              let epStr := cppSubstr objStr bs (be - bs + 1)
              ⟨extractJsonString epStr (strL "serverUrl"),
               extractJsonString epStr (strL "portId"),
               extractJsonString epStr (strL "portName")⟩

/-- One route object parse (RouteManager.h:307-336): counters load as 0. -/
def parseRouteObject (objStr : Str) : MidiRoute :=
  { id := extractJsonString objStr (strL "id"),
    enabled := extractJsonBool objStr (strL "enabled"),
    source := parseEndpoint objStr (strL "source"),
    destination := parseEndpoint objStr (strL "destination"),
    messagesForwarded := 0 }

/-- The brace-matching scan of loadFromDisk (RouteManager.h:296-302):
starting just after an opening brace with count n and acc characters
already consumed (the brace included), consume one character at a time,
returning the total consumed when the count reaches zero, or none when the
input ends first (braceCount != 0, the loop breaks). -/
def braceLoop : Str → Nat → Nat → Option Nat
  | _, 0, acc => some acc
  | [], _ + 1, _ => none
  | c :: s, n + 1, acc =>
      braceLoop s (if c = '\x7b' then n + 2 else if c = '\x7d' then n else n + 1) (acc + 1)

/-- The object loop of loadFromDisk (RouteManager.h:290-343), in
suffix-passing style: every C++ operation is a find from the current
position pos, so the loop is a function of content.drop pos; k and m are
offsets within the suffix.  Structural fuel stands in for the unbounded
while loop; each iteration consumes at least two characters, so
content.length + 1 fuel is never exhausted. -/
def parseLoopFuel : Nat → Str → Table → Table
  | 0, _, acc => acc
  | fuel + 1, s, acc =>
      match findIdxChar '\x7b' s with
      | none => acc
      | some k =>
          match braceLoop (s.drop (k + 1)) 1 1 with
          | none => acc
          | some m =>
              let objStr := (s.drop k).take m
              let route := parseRouteObject objStr
              let acc2 :=
                if ¬ route.id = [] ∧ ¬ route.source.portId = [] ∧
                    ¬ route.destination.portId = [] then
                  mapInsert route acc
                else acc
              parseLoopFuel fuel (s.drop (k + m)) acc2

/-- loadFromDisk (src/RouteManager.h:261-347) applied to file content:
routes.clear(), locate "routes" and the array bracket, then parse the
objects; on failure to find either, the table is left empty. -/
def loadFromDisk (content : Str) : Table :=
  match findSub (strL "\"routes\"") content with
  | none => []
  | some rs =>
      match findCharFrom content '[' rs with
      | none => []
      | some arrStart => parseLoopFuel (content.length + 1) (content.drop arrStart) []

/-- Counters are not persisted: a reloaded route has messagesForwarded 0. -/
def zeroCounter (r : MidiRoute) : MidiRoute := { r with messagesForwarded := 0 }

/-- Characters that survive the save/load pipeline verbatim: not escaped by
escapeJson (no quote, backslash, newline, carriage return, tab) and neutral
for the loader's quote and brace scanning. -/
def plainChar (c : Char) : Bool :=
  !(c = '"') && !(c = '\\') && !(c = '\n') && !(c = '\r') && !(c = '\t') &&
    !(c = '\x7b') && !(c = '\x7d')

/-- A plain string: every character plain. -/
def plainStr (v : Str) : Bool := v.all plainChar

/-- Conditions under which one route survives the save/load round trip:
all seven string fields plain, the three identifying fields non-empty
(loadFromDisk:338 skips the route otherwise), and no field written before
the destination key equal to the literal destination (the loader's
objStr.find("\"destination\"") would stop at such a value and read the
source subobject as the destination). -/
abbrev GoodRoute (r : MidiRoute) : Prop :=
  plainStr r.id = true ∧ plainStr r.source.serverUrl = true ∧
  plainStr r.source.portId = true ∧ plainStr r.source.portName = true ∧
  plainStr r.destination.serverUrl = true ∧ plainStr r.destination.portId = true ∧
  plainStr r.destination.portName = true ∧
  r.id ≠ [] ∧ r.source.portId ≠ [] ∧ r.destination.portId ≠ [] ∧
  r.id ≠ strL "destination" ∧ r.source.serverUrl ≠ strL "destination" ∧
  r.source.portId ≠ strL "destination" ∧ r.source.portName ≠ strL "destination"

theorem findSub_here (pat s : Str) (h : isPrefixB pat s = true) : findSub pat s = some 0 := by
  cases s <;> simp [findSub, h]

theorem findSub_cons_ne (pat : Str) (c : Char) (s : Str)
    (h : isPrefixB pat (c :: s) = false) :
    findSub pat (c :: s) = (findSub pat s).map (· + 1) := by
  simp [findSub, h]

/-- No occurrence of pat begins inside the segment A, with the continuation
s in view (checked position by position). -/
def noOcc (pat : Str) : Str → Str → Bool
  | [], _ => true
  | c :: A, s => !(isPrefixB pat (c :: (A ++ s))) && noOcc pat A s

theorem findSub_skip (pat : Str) : ∀ (A s : Str), noOcc pat A s = true →
    findSub pat (A ++ s) = (findSub pat s).map (· + A.length) := by
  intro A
  induction A with
  | nil =>
      intro s _
      cases h2 : findSub pat s <;> simp [h2]
  | cons c A ih =>
      intro s h
      simp only [noOcc, Bool.and_eq_true, Bool.not_eq_eq_eq_not, Bool.not_true] at h
      rw [List.cons_append, findSub_cons_ne _ _ _ h.1, ih s h.2, Option.map_map]
      cases h3 : findSub pat s <;> simp [h3, Nat.add_assoc]

theorem findSub_skip_nq (pat2 : Str) : ∀ (A s : Str), (∀ c ∈ A, c ≠ '"') →
    findSub ('"' :: pat2) (A ++ s) = (findSub ('"' :: pat2) s).map (· + A.length) := by
  intro A
  induction A with
  | nil =>
      intro s _
      cases h2 : findSub ('"' :: pat2) s <;> simp [h2]
  | cons c A ih =>
      intro s hA
      have hc : ('"' = c) = False := by
        simp
        exact fun hq => hA c (by simp) hq.symm
      have h0 : isPrefixB ('"' :: pat2) (c :: (A ++ s)) = false := by
        simp [isPrefixB, hc]
      rw [List.cons_append, findSub_cons_ne _ _ _ h0,
        ih s (fun d hd => hA d (by simp [hd])), Option.map_map]
      cases h3 : findSub ('"' :: pat2) s <;> simp [h3, Nat.add_assoc]

theorem findSub_skip_quoted (pat2 v s : Str) (hv : ∀ c ∈ v, c ≠ '"')
    (h0 : isPrefixB ('"' :: pat2) ('"' :: (v ++ '"' :: s)) = false)
    (h1 : isPrefixB ('"' :: pat2) ('"' :: s) = false) :
    findSub ('"' :: pat2) ('"' :: (v ++ '"' :: s)) =
      (findSub ('"' :: pat2) s).map (· + (v.length + 2)) := by
  rw [findSub_cons_ne _ _ _ h0, findSub_skip_nq pat2 v ('"' :: s) hv,
    findSub_cons_ne _ _ _ h1, Option.map_map, Option.map_map]
  cases h3 : findSub ('"' :: pat2) s
  · simp [h3]
  · simp [h3]
    omega

theorem keyColon_tail : ∀ (k : Str), (∀ c ∈ k, c ≠ '"') → ∀ (v : Str), (∀ c ∈ v, c ≠ '"') →
    ∀ (d : Char), d ≠ ':' → ∀ (s : Str),
    isPrefixB (k ++ ['"', ':']) (v ++ '"' :: d :: s) = false := by
  intro k
  induction k with
  | nil =>
      intro _ v hv d hd s
      cases v with
      | nil =>
          have hd2 : (':' = d) = False := by
            simp
            exact fun hq => hd hq.symm
          simp [isPrefixB, hd2]
      | cons c v2 =>
          have hc : ('"' = c) = False := by
            simp
            exact fun hq => hv c (by simp) hq.symm
          simp [isPrefixB, hc]
  | cons a k2 ih =>
      intro hk v hv d hd s
      have ha : a ≠ '"' := hk a (by simp)
      cases v with
      | nil =>
          have ha2 : (a = '"') = False := by simp [ha]
          simp [isPrefixB, ha2]
      | cons c v2 =>
          by_cases hac : a = c
          · subst hac
            simp only [List.cons_append, isPrefixB, if_pos rfl]
            exact ih (fun e he => hk e (by simp [he])) v2
              (fun e he => hv e (by simp [he])) d hd s
          · have hac2 : (a = c) = False := by simp [hac]
            simp [isPrefixB, hac2]

theorem keyBare_tail : ∀ (k : Str), (∀ c ∈ k, c ≠ '"') → ∀ (v : Str), (∀ c ∈ v, c ≠ '"') →
    v ≠ k → ∀ (s : Str), isPrefixB (k ++ ['"']) (v ++ '"' :: s) = false := by
  intro k
  induction k with
  | nil =>
      intro _ v hv hne s
      cases v with
      | nil => exact absurd rfl hne
      | cons c v2 =>
          have hc : ('"' = c) = False := by
            simp
            exact fun hq => hv c (by simp) hq.symm
          simp [isPrefixB, hc]
  | cons a k2 ih =>
      intro hk v hv hne s
      have ha : a ≠ '"' := hk a (by simp)
      cases v with
      | nil =>
          have ha2 : (a = '"') = False := by simp [ha]
          simp [isPrefixB, ha2]
      | cons c v2 =>
          by_cases hac : a = c
          · subst hac
            simp only [List.cons_append, isPrefixB, if_pos rfl]
            refine ih (fun e he => hk e (by simp [he])) v2
              (fun e he => hv e (by simp [he])) ?_ s
            intro hc
            exact hne (by rw [hc])
          · have hac2 : (a = c) = False := by simp [hac]
            simp [isPrefixB, hac2]

theorem keyColon_not_value (k : Str) (hk : ∀ c ∈ k, c ≠ '"') (v : Str)
    (hv : ∀ c ∈ v, c ≠ '"') (d : Char) (hd : d ≠ ':') (s : Str) :
    isPrefixB ('"' :: (k ++ ['"', ':'])) ('"' :: (v ++ '"' :: d :: s)) = false := by
  simp only [isPrefixB, if_pos rfl]
  exact keyColon_tail k hk v hv d hd s

theorem keyBare_not_value (k : Str) (hk : ∀ c ∈ k, c ≠ '"') (v : Str)
    (hv : ∀ c ∈ v, c ≠ '"') (hne : v ≠ k) (s : Str) :
    isPrefixB ('"' :: (k ++ ['"'])) ('"' :: (v ++ '"' :: s)) = false := by
  simp only [isPrefixB, if_pos rfl]
  exact keyBare_tail k hk v hv hne s

theorem findSub_le (pat : Str) : ∀ (s : Str) (i : Nat), isPrefixB pat (s.drop i) = true →
    ∃ j, findSub pat s = some j ∧ j ≤ i := by
  intro s
  induction s with
  | nil =>
      intro i h
      rw [List.drop_nil] at h
      exact ⟨0, by simp [findSub, h], Nat.zero_le i⟩
  | cons c s ih =>
      intro i h
      by_cases h0 : isPrefixB pat (c :: s) = true
      · exact ⟨0, findSub_here _ _ h0, Nat.zero_le i⟩
      · have h0f : isPrefixB pat (c :: s) = false := by
          simpa using h0
        cases i with
        | zero =>
            rw [List.drop_zero] at h
            exact absurd h h0
        | succ k =>
            have h2 : isPrefixB pat (s.drop k) = true := by simpa using h
            obtain ⟨j, hj, hle⟩ := ih k h2
            refine ⟨j + 1, ?_, by omega⟩
            rw [findSub_cons_ne _ _ _ h0f, hj]
            rfl

theorem findSub_ge_one (pat s : Str) (h0 : isPrefixB pat s = false) (j : Nat)
    (hj : findSub pat s = some j) : 1 ≤ j := by
  cases s with
  | nil =>
      simp [findSub, h0] at hj
  | cons c s =>
      rw [findSub_cons_ne _ _ _ h0] at hj
      cases h2 : findSub pat s with
      | none => rw [h2] at hj; cases hj
      | some j2 =>
          rw [h2] at hj
          simp at hj
          omega

theorem findCharFrom_char (c : Char) (pre M T : Str) (x : Nat)
    (hx1 : pre.length ≤ x) (hx2 : x ≤ pre.length + M.length)
    (hM : ∀ a ∈ M.drop (x - pre.length), a ≠ c) :
    findCharFrom (pre ++ (M ++ c :: T)) c x = some (pre.length + M.length) := by
  obtain ⟨k, rfl⟩ : ∃ k, x = pre.length + k := ⟨x - pre.length, by omega⟩
  have hk : k ≤ M.length := by omega
  have hkk : pre.length + k - pre.length = k := by omega
  rw [hkk] at hM
  unfold findCharFrom
  have hdrop : (pre ++ (M ++ c :: T)).drop (pre.length + k) = M.drop k ++ c :: T := by
    have hsplit : (pre ++ (M ++ c :: T)).drop (pre.length + k) =
        ((pre ++ (M ++ c :: T)).drop pre.length).drop k := by
      rw [List.drop_drop]
    rw [hsplit, drop_head_append pre _ pre.length rfl, List.drop_append_of_le_length hk]
  rw [hdrop, findIdxChar_append_not_mem c _ _ hM, findIdxChar_cons_self]
  simp [List.length_drop]
  omega

theorem braceLoop_zero (s : Str) (acc : Nat) : braceLoop s 0 acc = some acc := by
  cases s <;> rfl

theorem braceLoop_skip : ∀ (A : Str), (∀ a ∈ A, a ≠ '\x7b' ∧ a ≠ '\x7d') →
    ∀ (s : Str) (n acc : Nat),
    braceLoop (A ++ s) (n + 1) acc = braceLoop s (n + 1) (acc + A.length) := by
  intro A
  induction A with
  | nil => intro _ s n acc; simp
  | cons a A ih =>
      intro hA s n acc
      obtain ⟨h1, h2⟩ := hA a (by simp)
      show braceLoop (a :: (A ++ s)) (n + 1) acc = _
      simp only [braceLoop, h1, h2, if_false]
      rw [ih (fun b hb => hA b (by simp [hb])) s n (acc + 1)]
      congr 1
      simp
      omega

theorem braceLoop_open (s : Str) (n acc : Nat) :
    braceLoop ('\x7b' :: s) (n + 1) acc = braceLoop s (n + 2) (acc + 1) := by
  simp [braceLoop]

theorem braceLoop_close (s : Str) (n acc : Nat) :
    braceLoop ('\x7d' :: s) (n + 1) acc = braceLoop s n (acc + 1) := by
  simp [braceLoop]

theorem take_head_append (A X : Str) (n : Nat) (hn : A.length = n) : (A ++ X).take n = A := by
  rw [← hn]
  exact List.take_left A X

theorem plain_no_quote {v : Str} (h : plainStr v = true) : ∀ c ∈ v, c ≠ '"' := by
  intro c hc
  have h2 := (List.all_eq_true.mp h) c hc
  unfold plainChar at h2
  simp at h2
  obtain ⟨⟨⟨⟨⟨⟨hq, hbs⟩, hnl⟩, hcr⟩, htab⟩, hob⟩, hcb⟩ := h2
  exact hq

theorem plain_no_brace {v : Str} (h : plainStr v = true) :
    ∀ c ∈ v, c ≠ '\x7b' ∧ c ≠ '\x7d' := by
  intro c hc
  have h2 := (List.all_eq_true.mp h) c hc
  unfold plainChar at h2
  simp at h2
  obtain ⟨⟨⟨⟨⟨⟨hq, hbs⟩, hnl⟩, hcr⟩, htab⟩, hob⟩, hcb⟩ := h2
  exact ⟨hob, hcb⟩

theorem tf_no_quote (b : Bool) :
    ∀ c ∈ (if b then strL "true" else strL "false"), c ≠ '"' := by
  cases b <;> decide

theorem tf_no_brace (b : Bool) :
    ∀ c ∈ (if b then strL "true" else strL "false"), c ≠ '\x7b' ∧ c ≠ '\x7d' := by
  cases b <;> decide

theorem escChar_plain {c : Char} (h : plainChar c = true) : escChar c = [c] := by
  unfold plainChar at h
  simp at h
  obtain ⟨⟨⟨⟨⟨⟨hq, hbs⟩, hnl⟩, hcr⟩, htab⟩, hob⟩, hcb⟩ := h
  simp [escChar, hq, hbs, hnl, hcr, htab]

theorem escapeJson_plain {v : Str} (h : plainStr v = true) : escapeJson v = v := by
  induction v with
  | nil => rfl
  | cons c v2 ih =>
      have hc : plainChar c = true := (List.all_eq_true.mp h) c (by simp)
      have hrest : plainStr v2 = true := by
        refine List.all_eq_true.mpr ?_
        intro d hd
        exact (List.all_eq_true.mp h) d (by simp [hd])
      show escChar c ++ escapeJson v2 = c :: v2
      rw [escChar_plain hc, ih hrest]
      rfl

theorem qesc_plain {v : Str} (h : plainStr v = true) : qesc v = '"' :: v ++ ['"'] := by
  unfold qesc
  rw [escapeJson_plain h]


theorem extractJsonString_at (key A v T : Str) (hv : ∀ c ∈ v, c ≠ '"')
    (hfind : findSub ('"' :: key ++ ['"', ':'])
        (A ++ ('"' :: key ++ ['"', ':']) ++ (' ' :: '"' :: (v ++ '"' :: T))) =
      some A.length) :
    extractJsonString (A ++ ('"' :: key ++ ['"', ':']) ++ (' ' :: '"' :: (v ++ '"' :: T)))
      key = v := by
  have h1 : findCharFrom (A ++ ('"' :: key ++ ['"', ':']) ++ (' ' :: '"' :: (v ++ '"' :: T)))
      '"' (A.length + ('"' :: key ++ ['"', ':']).length) =
      some ((A ++ ('"' :: key ++ ['"', ':'])).length + 1) := by
    exact findCharFrom_char '"' (A ++ ('"' :: key ++ ['"', ':'])) [' '] (v ++ '"' :: T)
      (A.length + ('"' :: key ++ ['"', ':']).length) (by simp) (by simp)
      (by
        intro a ha
        have ham := List.mem_of_mem_drop ha
        simp at ham
        rw [ham]
        decide)
  have h2 : findCharFrom (A ++ ('"' :: key ++ ['"', ':']) ++ (' ' :: '"' :: (v ++ '"' :: T)))
      '"' ((A ++ ('"' :: key ++ ['"', ':'])).length + 1 + 1) =
      some ((A ++ ('"' :: key ++ ['"', ':'])).length + (v.length + 1 + 1)) := by
    exact findCharFrom_char '"' (A ++ ('"' :: key ++ ['"', ':'])) (' ' :: '"' :: v)
      T ((A ++ ('"' :: key ++ ['"', ':'])).length + 1 + 1)
      (by omega) (by simp; omega)
      (by
        intro a ha
        have he : (A ++ ('"' :: key ++ ['"', ':'])).length + 1 + 1 -
            (A ++ ('"' :: key ++ ['"', ':'])).length = 2 := by omega
        rw [he] at ha
        exact hv a ha)
  simp only [extractJsonString, hfind, h1, h2]
  have hcnt : (A ++ ('"' :: key ++ ['"', ':'])).length + (v.length + 1 + 1) -
      ((A ++ ('"' :: key ++ ['"', ':'])).length + 1) - 1 = v.length := by omega
  have hdrop : ((A ++ ('"' :: key ++ ['"', ':']) ++
      (' ' :: '"' :: (v ++ '"' :: T)))).drop
      ((A ++ ('"' :: key ++ ['"', ':'])).length + 1 + 1) = v ++ '"' :: T := by
    have hsplit : ((A ++ ('"' :: key ++ ['"', ':']) ++
        (' ' :: '"' :: (v ++ '"' :: T)))).drop
        ((A ++ ('"' :: key ++ ['"', ':'])).length + 1 + 1) =
        (((A ++ ('"' :: key ++ ['"', ':']) ++
          (' ' :: '"' :: (v ++ '"' :: T)))).drop
          (A ++ ('"' :: key ++ ['"', ':'])).length).drop 2 := by
      rw [List.drop_drop]
    rw [hsplit, drop_head_append (A ++ ('"' :: key ++ ['"', ':'])) _ _ rfl]
    rfl
  unfold cppSubstr
  rw [hcnt, hdrop, take_head_append v ('"' :: T) v.length rfl]


theorem extractJsonBool_at (key A T : Str) (b : Bool)
    (hfind : findSub ('"' :: key ++ ['"', ':'])
        (A ++ ('"' :: key ++ ['"', ':']) ++
          (' ' :: ((if b then strL "true" else strL "false") ++ T))) =
      some A.length) :
    extractJsonBool
      (A ++ ('"' :: key ++ ['"', ':']) ++
        (' ' :: ((if b then strL "true" else strL "false") ++ T))) key = b := by
  cases b
  · have hfind' : findSub ('"' :: key ++ ['"', ':'])
        (A ++ ('"' :: key ++ ['"', ':']) ++ (' ' :: (strL "false" ++ T))) =
        some A.length := hfind
    show extractJsonBool
      (A ++ ('"' :: key ++ ['"', ':']) ++ (' ' :: (strL "false" ++ T))) key = false
    have hdrop : (A ++ ('"' :: key ++ ['"', ':']) ++
        (' ' :: (strL "false" ++ T))).drop
        (A.length + ('"' :: key ++ ['"', ':']).length) =
        ' ' :: (strL "false" ++ T) := by
      exact drop_head_append (A ++ ('"' :: key ++ ['"', ':'])) _ _ (by simp)
    simp only [extractJsonBool, hfind', hdrop]
    have htw : (' ' :: (strL "false" ++ T)).takeWhile
        (fun c => c == ' ' || c == '\t') = [' '] := rfl
    simp only [htw, List.length_cons, List.length_nil]
    have hdrop2 : (A ++ ('"' :: key ++ ['"', ':']) ++
        (' ' :: (strL "false" ++ T))).drop
        (A.length + ('"' :: key ++ ['"', ':']).length + (0 + 1)) =
        strL "false" ++ T := by
      have h := drop_head_append
        (A ++ ('"' :: key ++ ['"', ':']) ++ [' ']) (strL "false" ++ T)
        (A.length + ('"' :: key ++ ['"', ':']).length + (0 + 1)) (by simp; omega)
      simpa using h
    simp only [cppSubstr, hdrop2]
    have h4 : (strL "false" ++ T).take 4 = strL "fals" := by
      have : strL "false" ++ T = strL "fals" ++ ('e' :: T) := rfl
      rw [this]
      exact take_head_append (strL "fals") ('e' :: T) 4 rfl
    rw [h4]
    decide
  · have hfind' : findSub ('"' :: key ++ ['"', ':'])
        (A ++ ('"' :: key ++ ['"', ':']) ++ (' ' :: (strL "true" ++ T))) =
        some A.length := hfind
    show extractJsonBool
      (A ++ ('"' :: key ++ ['"', ':']) ++ (' ' :: (strL "true" ++ T))) key = true
    have hdrop : (A ++ ('"' :: key ++ ['"', ':']) ++
        (' ' :: (strL "true" ++ T))).drop
        (A.length + ('"' :: key ++ ['"', ':']).length) =
        ' ' :: (strL "true" ++ T) := by
      exact drop_head_append (A ++ ('"' :: key ++ ['"', ':'])) _ _ (by simp)
    simp only [extractJsonBool, hfind', hdrop]
    have htw : (' ' :: (strL "true" ++ T)).takeWhile
        (fun c => c == ' ' || c == '\t') = [' '] := rfl
    simp only [htw, List.length_cons, List.length_nil]
    have hdrop2 : (A ++ ('"' :: key ++ ['"', ':']) ++
        (' ' :: (strL "true" ++ T))).drop
        (A.length + ('"' :: key ++ ['"', ':']).length + (0 + 1)) =
        strL "true" ++ T := by
      have h := drop_head_append
        (A ++ ('"' :: key ++ ['"', ':']) ++ [' ']) (strL "true" ++ T)
        (A.length + ('"' :: key ++ ['"', ':']).length + (0 + 1)) (by simp; omega)
      simpa using h
    simp only [cppSubstr, hdrop2]
    have h4 : (strL "true" ++ T).take 4 = strL "true" :=
      take_head_append (strL "true") T 4 rfl
    rw [h4]
    simp


/-- Tail of the endpoint subobject text from just before the portName key. -/
def epTail3 (n : Str) : Str :=
  strL ",\n        " ++ (strL "\"portName\":" ++ (' ' :: '"' :: (n ++ '"' ::
    strL "\n      \x7d")))

/-- Tail of the endpoint subobject text from just before the portId key. -/
def epTail2 (p n : Str) : Str :=
  strL ",\n        " ++ (strL "\"portId\":" ++ (' ' :: '"' :: (p ++ '"' :: epTail3 n)))

/-- The right-nested ("chain") regrouping of one endpoint subobject text as
written by saveToDiskUnlocked, for plain field values. -/
def epSliceCNF (u p n : Str) : Str :=
  strL "\x7b\n        " ++ (strL "\"serverUrl\":" ++ (' ' :: '"' :: (u ++ '"' ::
    epTail2 p n)))

/-- Tail of a route object text from just before the destination key. -/
def objTail4 (du dp dn : Str) : Str :=
  strL ",\n      " ++ (strL "\"destination\":" ++ (' ' :: (epSliceCNF du dp dn ++
    strL "\n    \x7d")))

/-- Tail of a route object text from just before the source key. -/
def objTail3 (su sp sn du dp dn : Str) : Str :=
  strL ",\n      " ++ (strL "\"source\":" ++ (' ' :: (epSliceCNF su sp sn ++
    objTail4 du dp dn)))

/-- Tail of a route object text from just before the enabled key. -/
def objTail2 (b : Bool) (su sp sn du dp dn : Str) : Str :=
  strL ",\n      " ++ (strL "\"enabled\":" ++ (' ' ::
    ((if b then strL "true" else strL "false") ++ objTail3 su sp sn du dp dn)))

/-- The right-nested regrouping of one whole route object text, for plain
field values. -/
def objCNF (rid : Str) (b : Bool) (su sp sn du dp dn : Str) : Str :=
  strL "\x7b\n      " ++ (strL "\"id\":" ++ (' ' :: '"' :: (rid ++ '"' ::
    objTail2 b su sp sn du dp dn)))

theorem objChars_eq_cnf (r : MidiRoute)
    (h1 : plainStr r.id = true) (h2 : plainStr r.source.serverUrl = true)
    (h3 : plainStr r.source.portId = true) (h4 : plainStr r.source.portName = true)
    (h5 : plainStr r.destination.serverUrl = true)
    (h6 : plainStr r.destination.portId = true)
    (h7 : plainStr r.destination.portName = true) :
    objChars r = objCNF r.id r.enabled r.source.serverUrl r.source.portId
      r.source.portName r.destination.serverUrl r.destination.portId
      r.destination.portName := by
  unfold objChars objCNF objTail2 objTail3 objTail4 epSliceCNF epTail2 epTail3
  rw [qesc_plain h1, qesc_plain h2, qesc_plain h3, qesc_plain h4, qesc_plain h5,
    qesc_plain h6, qesc_plain h7]
  have e1 : strL "\x7b\n      \"id\": " =
      strL "\x7b\n      " ++ (strL "\"id\":" ++ [' ']) := by decide
  have e2 : strL ",\n      \"enabled\": " =
      strL ",\n      " ++ (strL "\"enabled\":" ++ [' ']) := by decide
  have e3 : strL ",\n      \"source\": \x7b\n        \"serverUrl\": " =
      strL ",\n      " ++ (strL "\"source\":" ++ (' ' :: (strL "\x7b\n        " ++
        (strL "\"serverUrl\":" ++ [' '])))) := by decide
  have e4 : strL ",\n        \"portId\": " =
      strL ",\n        " ++ (strL "\"portId\":" ++ [' ']) := by decide
  have e5 : strL ",\n        \"portName\": " =
      strL ",\n        " ++ (strL "\"portName\":" ++ [' ']) := by decide
  have e6 : strL "\n      \x7d,\n      \"destination\": \x7b\n        \"serverUrl\": " =
      strL "\n      \x7d" ++ (strL ",\n      " ++ (strL "\"destination\":" ++
        (' ' :: (strL "\x7b\n        " ++ (strL "\"serverUrl\":" ++ [' ']))))) := by decide
  have e9 : strL "\n      \x7d\n    \x7d" =
      strL "\n      \x7d" ++ strL "\n    \x7d" := by decide
  rw [e1, e2, e3, e4, e5, e6, e9]
  simp [List.append_assoc, List.cons_append, List.nil_append, List.singleton_append]

theorem noChar_append {c : Char} {A B : Str} (hA : ∀ a ∈ A, a ≠ c)
    (hB : ∀ a ∈ B, a ≠ c) : ∀ a ∈ A ++ B, a ≠ c := by
  intro a ha
  rcases List.mem_append.mp ha with h | h
  · exact hA a h
  · exact hB a h

theorem noChar_cons {c d : Char} {B : Str} (hd : d ≠ c) (hB : ∀ a ∈ B, a ≠ c) :
    ∀ a ∈ d :: B, a ≠ c := by
  intro a ha
  rcases List.mem_cons.mp ha with h | h
  · rw [h]; exact hd
  · exact hB a h


theorem ep_serverUrl (u p n : Str) (hu : ∀ c ∈ u, c ≠ '"') :
    extractJsonString (epSliceCNF u p n) (strL "serverUrl") = u := by
  have hfind : findSub ('"' :: (strL "serverUrl" ++ ['"', ':'])) (epSliceCNF u p n) =
      some (strL "\x7b\n        ").length := by
    show findSub ('"' :: (strL "serverUrl" ++ ['"', ':']))
        (strL "\x7b\n        " ++ (strL "\"serverUrl\":" ++
          (' ' :: '"' :: (u ++ '"' :: epTail2 p n)))) = _
    rw [findSub_skip_nq (strL "serverUrl" ++ ['"', ':']) (strL "\x7b\n        ")
        (strL "\"serverUrl\":" ++ (' ' :: '"' :: (u ++ '"' :: epTail2 p n))) (by decide),
      findSub_here _ _ (by rfl)]
    rfl
  exact extractJsonString_at (strL "serverUrl") (strL "\x7b\n        ") u (epTail2 p n)
    hu hfind

theorem ep_portId (u p n : Str) (hu : ∀ c ∈ u, c ≠ '"') (hp : ∀ c ∈ p, c ≠ '"') :
    extractJsonString (epSliceCNF u p n) (strL "portId") = p := by
  have hshape : epSliceCNF u p n =
      (strL "\x7b\n        " ++ (strL "\"serverUrl\":" ++ (' ' :: '"' :: (u ++ '"' ::
        strL ",\n        ")))) ++ ('"' :: (strL "portId" ++ ['"', ':'])) ++
      (' ' :: '"' :: (p ++ '"' :: epTail3 n)) := by
    have k : strL "\"portId\":" = '"' :: (strL "portId" ++ ['"', ':']) := by decide
    unfold epSliceCNF epTail2
    rw [k]
    simp [List.append_assoc]
  have h0 : isPrefixB ('"' :: (strL "portId" ++ ['"', ':']))
      ('"' :: (u ++ '"' :: epTail2 p n)) = false :=
    keyColon_not_value (strL "portId") (by decide) u hu ',' (by decide)
      (strL "\n        " ++ (strL "\"portId\":" ++ (' ' :: '"' :: (p ++ '"' :: epTail3 n))))
  have h1 : isPrefixB ('"' :: (strL "portId" ++ ['"', ':']))
      ('"' :: epTail2 p n) = false := by rfl
  have hfind : findSub ('"' :: (strL "portId" ++ ['"', ':'])) (epSliceCNF u p n) =
      some ((strL "\x7b\n        " ++ (strL "\"serverUrl\":" ++ (' ' :: '"' :: (u ++ '"' ::
        strL ",\n        ")))).length) := by
    show findSub ('"' :: (strL "portId" ++ ['"', ':']))
        ((strL "\x7b\n        " ++ (strL "\"serverUrl\":" ++ [' '])) ++
          ('"' :: (u ++ '"' :: epTail2 p n))) = _
    rw [findSub_skip ('"' :: (strL "portId" ++ ['"', ':']))
        (strL "\x7b\n        " ++ (strL "\"serverUrl\":" ++ [' ']))
        ('"' :: (u ++ '"' :: epTail2 p n)) (by rfl)]
    rw [findSub_skip_quoted (strL "portId" ++ ['"', ':']) u (epTail2 p n) hu h0 h1]
    unfold epTail2
    rw [findSub_skip_nq (strL "portId" ++ ['"', ':']) (strL ",\n        ")
        (strL "\"portId\":" ++ (' ' :: '"' :: (p ++ '"' :: epTail3 n))) (by decide)]
    rw [findSub_here _ _ (by rfl)]
    simp [List.length_append]
    omega
  rw [hshape] at hfind
  rw [hshape]
  exact extractJsonString_at (strL "portId")
    (strL "\x7b\n        " ++ (strL "\"serverUrl\":" ++ (' ' :: '"' :: (u ++ '"' ::
      strL ",\n        ")))) p (epTail3 n) hp hfind

theorem ep_portName (u p n : Str) (hu : ∀ c ∈ u, c ≠ '"') (hp : ∀ c ∈ p, c ≠ '"')
    (hn : ∀ c ∈ n, c ≠ '"') :
    extractJsonString (epSliceCNF u p n) (strL "portName") = n := by
  have hshape : epSliceCNF u p n =
      (strL "\x7b\n        " ++ (strL "\"serverUrl\":" ++ (' ' :: '"' :: (u ++ '"' ::
        (strL ",\n        " ++ (strL "\"portId\":" ++ (' ' :: '"' :: (p ++ '"' ::
        strL ",\n        ")))))))) ++ ('"' :: (strL "portName" ++ ['"', ':'])) ++
      (' ' :: '"' :: (n ++ '"' :: strL "\n      \x7d")) := by
    have k : strL "\"portName\":" = '"' :: (strL "portName" ++ ['"', ':']) := by decide
    unfold epSliceCNF epTail2 epTail3
    rw [k]
    simp [List.append_assoc]
  have h0 : isPrefixB ('"' :: (strL "portName" ++ ['"', ':']))
      ('"' :: (u ++ '"' :: epTail2 p n)) = false :=
    keyColon_not_value (strL "portName") (by decide) u hu ',' (by decide)
      (strL "\n        " ++ (strL "\"portId\":" ++ (' ' :: '"' :: (p ++ '"' :: epTail3 n))))
  have h1 : isPrefixB ('"' :: (strL "portName" ++ ['"', ':']))
      ('"' :: epTail2 p n) = false := by rfl
  have h0b : isPrefixB ('"' :: (strL "portName" ++ ['"', ':']))
      ('"' :: (p ++ '"' :: epTail3 n)) = false :=
    keyColon_not_value (strL "portName") (by decide) p hp ',' (by decide)
      (strL "\n        " ++ (strL "\"portName\":" ++ (' ' :: '"' :: (n ++ '"' ::
        strL "\n      \x7d"))))
  have h1b : isPrefixB ('"' :: (strL "portName" ++ ['"', ':']))
      ('"' :: epTail3 n) = false := by rfl
  have hfind : findSub ('"' :: (strL "portName" ++ ['"', ':'])) (epSliceCNF u p n) =
      some ((strL "\x7b\n        " ++ (strL "\"serverUrl\":" ++ (' ' :: '"' :: (u ++ '"' ::
        (strL ",\n        " ++ (strL "\"portId\":" ++ (' ' :: '"' :: (p ++ '"' ::
        strL ",\n        ")))))))).length) := by
    show findSub ('"' :: (strL "portName" ++ ['"', ':']))
        ((strL "\x7b\n        " ++ (strL "\"serverUrl\":" ++ [' '])) ++
          ('"' :: (u ++ '"' :: epTail2 p n))) = _
    rw [findSub_skip ('"' :: (strL "portName" ++ ['"', ':']))
        (strL "\x7b\n        " ++ (strL "\"serverUrl\":" ++ [' ']))
        ('"' :: (u ++ '"' :: epTail2 p n)) (by rfl)]
    rw [findSub_skip_quoted (strL "portName" ++ ['"', ':']) u (epTail2 p n) hu h0 h1]
    unfold epTail2
    rw [findSub_skip_nq (strL "portName" ++ ['"', ':']) (strL ",\n        ")
        (strL "\"portId\":" ++ (' ' :: '"' :: (p ++ '"' :: epTail3 n))) (by decide)]
    rw [findSub_skip ('"' :: (strL "portName" ++ ['"', ':'])) (strL "\"portId\":")
        (' ' :: '"' :: (p ++ '"' :: epTail3 n)) (by rfl)]
    rw [findSub_cons_ne _ ' ' ('"' :: (p ++ '"' :: epTail3 n)) (by rfl)]
    rw [findSub_skip_quoted (strL "portName" ++ ['"', ':']) p (epTail3 n) hp h0b h1b]
    unfold epTail3
    rw [findSub_skip_nq (strL "portName" ++ ['"', ':']) (strL ",\n        ")
        (strL "\"portName\":" ++ (' ' :: '"' :: (n ++ '"' :: strL "\n      \x7d")))
        (by decide)]
    rw [findSub_here _ _ (by rfl)]
    simp [List.length_append]
    omega
  rw [hshape] at hfind
  rw [hshape]
  exact extractJsonString_at (strL "portName")
    (strL "\x7b\n        " ++ (strL "\"serverUrl\":" ++ (' ' :: '"' :: (u ++ '"' ::
      (strL ",\n        " ++ (strL "\"portId\":" ++ (' ' :: '"' :: (p ++ '"' ::
      strL ",\n        ")))))))) n (strL "\n      \x7d") hn hfind


theorem parse_id (rid : Str) (b : Bool) (su sp sn du dp dn : Str)
    (hrid : ∀ c ∈ rid, c ≠ '"') :
    extractJsonString (objCNF rid b su sp sn du dp dn) (strL "id") = rid := by
  have hfind : findSub ('"' :: (strL "id" ++ ['"', ':']))
      (objCNF rid b su sp sn du dp dn) = some (strL "\x7b\n      ").length := by
    show findSub ('"' :: (strL "id" ++ ['"', ':']))
        (strL "\x7b\n      " ++ (strL "\"id\":" ++
          (' ' :: '"' :: (rid ++ '"' :: objTail2 b su sp sn du dp dn)))) = _
    rw [findSub_skip_nq (strL "id" ++ ['"', ':']) (strL "\x7b\n      ")
        (strL "\"id\":" ++ (' ' :: '"' :: (rid ++ '"' :: objTail2 b su sp sn du dp dn)))
        (by decide),
      findSub_here _ _ (by rfl)]
    rfl
  exact extractJsonString_at (strL "id") (strL "\x7b\n      ") rid
    (objTail2 b su sp sn du dp dn) hrid hfind

theorem parse_enabled (rid : Str) (b : Bool) (su sp sn du dp dn : Str)
    (hrid : ∀ c ∈ rid, c ≠ '"') :
    extractJsonBool (objCNF rid b su sp sn du dp dn) (strL "enabled") = b := by
  have hshape : objCNF rid b su sp sn du dp dn =
      (strL "\x7b\n      " ++ (strL "\"id\":" ++ (' ' :: '"' :: (rid ++ '"' ::
        strL ",\n      ")))) ++ ('"' :: (strL "enabled" ++ ['"', ':'])) ++
      (' ' :: ((if b then strL "true" else strL "false") ++
        objTail3 su sp sn du dp dn)) := by
    have k : strL "\"enabled\":" = '"' :: (strL "enabled" ++ ['"', ':']) := by decide
    unfold objCNF objTail2
    rw [k]
    simp [List.append_assoc]
  have h0 : isPrefixB ('"' :: (strL "enabled" ++ ['"', ':']))
      ('"' :: (rid ++ '"' :: objTail2 b su sp sn du dp dn)) = false :=
    keyColon_not_value (strL "enabled") (by decide) rid hrid ',' (by decide)
      (strL "\n      " ++ (strL "\"enabled\":" ++ (' ' ::
        ((if b then strL "true" else strL "false") ++ objTail3 su sp sn du dp dn))))
  have h1 : isPrefixB ('"' :: (strL "enabled" ++ ['"', ':']))
      ('"' :: objTail2 b su sp sn du dp dn) = false := by rfl
  have hfind : findSub ('"' :: (strL "enabled" ++ ['"', ':']))
      (objCNF rid b su sp sn du dp dn) =
      some ((strL "\x7b\n      " ++ (strL "\"id\":" ++ (' ' :: '"' :: (rid ++ '"' ::
        strL ",\n      ")))).length) := by
    show findSub ('"' :: (strL "enabled" ++ ['"', ':']))
        ((strL "\x7b\n      " ++ (strL "\"id\":" ++ [' '])) ++
          ('"' :: (rid ++ '"' :: objTail2 b su sp sn du dp dn))) = _
    rw [findSub_skip ('"' :: (strL "enabled" ++ ['"', ':']))
        (strL "\x7b\n      " ++ (strL "\"id\":" ++ [' ']))
        ('"' :: (rid ++ '"' :: objTail2 b su sp sn du dp dn)) (by rfl)]
    rw [findSub_skip_quoted (strL "enabled" ++ ['"', ':']) rid
        (objTail2 b su sp sn du dp dn) hrid h0 h1]
    unfold objTail2
    rw [findSub_skip_nq (strL "enabled" ++ ['"', ':']) (strL ",\n      ")
        (strL "\"enabled\":" ++ (' ' :: ((if b then strL "true" else strL "false") ++
          objTail3 su sp sn du dp dn))) (by decide)]
    rw [findSub_here _ _ (by rfl)]
    simp [List.length_append]
    omega
  rw [hshape] at hfind
  rw [hshape]
  exact extractJsonBool_at (strL "enabled")
    (strL "\x7b\n      " ++ (strL "\"id\":" ++ (' ' :: '"' :: (rid ++ '"' ::
      strL ",\n      ")))) (objTail3 su sp sn du dp dn) b hfind


/-- The object text strictly before the "source" key. -/
def srcPrefix (rid : Str) (b : Bool) : Str :=
  strL "\x7b\n      " ++ (strL "\"id\":" ++ (' ' :: '"' :: (rid ++ '"' ::
    (strL ",\n      " ++ (strL "\"enabled\":" ++ (' ' ::
      ((if b then strL "true" else strL "false") ++ strL ",\n      ")))))))

/-- The object text between the object's opening brace (exclusive) and the
source endpoint's opening brace (exclusive). -/
def srcMid (rid : Str) (b : Bool) : Str :=
  strL "\n      " ++ (strL "\"id\":" ++ (' ' :: '"' :: (rid ++ '"' ::
    (strL ",\n      " ++ (strL "\"enabled\":" ++ (' ' ::
      ((if b then strL "true" else strL "false") ++
        (strL ",\n      " ++ (strL "\"source\":" ++ [' '])))))))))

/-- An endpoint subobject text without its framing braces. -/
def epInner (u p n : Str) : Str :=
  strL "\n        " ++ (strL "\"serverUrl\":" ++ (' ' :: '"' :: (u ++ '"' ::
    (strL ",\n        " ++ (strL "\"portId\":" ++ (' ' :: '"' :: (p ++ '"' ::
    (strL ",\n        " ++ (strL "\"portName\":" ++ (' ' :: '"' :: (n ++ '"' ::
      strL "\n      ")))))))))))

theorem split_a0 : strL "\x7b\n      " = '\x7b' :: strL "\n      " := by decide

theorem split_b0 : strL "\x7b\n        " = '\x7b' :: strL "\n        " := by decide

theorem split_cl : strL "\n      \x7d" = strL "\n      " ++ ['\x7d'] := by decide

theorem split_co : strL "\n    \x7d" = strL "\n    " ++ ['\x7d'] := by decide

theorem len_s8 : (strL "\x7b\n      ").length = 8 := rfl

theorem len_s7 : (strL "\n      ").length = 7 := rfl

theorem len_id5 : (strL "\"id\":").length = 5 := rfl

theorem len_c8 : (strL ",\n      ").length = 8 := rfl

theorem len_en10 : (strL "\"enabled\":").length = 10 := rfl

theorem len_so9 : (strL "\"source\":").length = 9 := rfl

theorem len_de14 : (strL "\"destination\":").length = 14 := rfl

theorem len_e10 : (strL "\x7b\n        ").length = 10 := rfl

theorem len_e9 : (strL "\n        ").length = 9 := rfl

theorem len_su12 : (strL "\"serverUrl\":").length = 12 := rfl

theorem len_pi9 : (strL "\"portId\":").length = 9 := rfl

theorem len_pn11 : (strL "\"portName\":").length = 11 := rfl

theorem len_c10 : (strL ",\n        ").length = 10 := rfl

theorem len_ce8 : (strL "\n      \x7d").length = 8 := rfl

theorem len_co6 : (strL "\n    \x7d").length = 6 := rfl

theorem srcMid_no_open (rid : Str) (b : Bool) (hrid : plainStr rid = true) :
    ∀ a ∈ srcMid rid b, a ≠ '\x7b' := by
  unfold srcMid
  exact noChar_append (by decide) (noChar_append (by decide) (noChar_cons (by decide)
    (noChar_cons (by decide) (noChar_append
      (fun a ha => (plain_no_brace hrid a ha).1) (noChar_cons (by decide)
      (noChar_append (by decide) (noChar_append (by decide) (noChar_cons (by decide)
      (noChar_append (fun a ha => (tf_no_brace b a ha).1) (noChar_append (by decide)
      (noChar_append (by decide) (by decide))))))))))))

theorem epInner_no_close (u p n : Str) (hu : plainStr u = true)
    (hp : plainStr p = true) (hn : plainStr n = true) :
    ∀ a ∈ epInner u p n, a ≠ '\x7d' := by
  unfold epInner
  exact noChar_append (by decide) (noChar_append (by decide) (noChar_cons (by decide)
    (noChar_cons (by decide) (noChar_append
      (fun a ha => (plain_no_brace hu a ha).2) (noChar_cons (by decide)
      (noChar_append (by decide) (noChar_append (by decide) (noChar_cons (by decide)
      (noChar_cons (by decide) (noChar_append
        (fun a ha => (plain_no_brace hp a ha).2) (noChar_cons (by decide)
      (noChar_append (by decide) (noChar_append (by decide) (noChar_cons (by decide)
      (noChar_cons (by decide) (noChar_append
        (fun a ha => (plain_no_brace hn a ha).2) (noChar_cons (by decide)
      (by decide))))))))))))))))))

theorem epSlice_recompose (u p n : Str) :
    ('\x7b' :: epInner u p n) ++ ['\x7d'] = epSliceCNF u p n := by
  unfold epSliceCNF epTail2 epTail3 epInner
  rw [split_b0, split_cl]
  simp [List.append_assoc]


theorem parse_source (rid : Str) (b : Bool) (su sp sn du dp dn : Str)
    (hrid : plainStr rid = true) (hsu : plainStr su = true)
    (hsp : plainStr sp = true) (hsn : plainStr sn = true) :
    parseEndpoint (objCNF rid b su sp sn du dp dn) (strL "source") =
      ⟨su, sp, sn⟩ := by
  have hshape_s : objCNF rid b su sp sn du dp dn =
      srcPrefix rid b ++ (strL "\"source\":" ++ (' ' :: (epSliceCNF su sp sn ++
        objTail4 du dp dn))) := by
    unfold objCNF objTail2 objTail3 srcPrefix
    simp [List.append_assoc]
  have hshape_b1 : objCNF rid b su sp sn du dp dn =
      ['\x7b'] ++ (srcMid rid b ++ ('\x7b' :: (epInner su sp sn ++
        ('\x7d' :: objTail4 du dp dn)))) := by
    unfold objCNF objTail2 objTail3 srcMid epSliceCNF epTail2 epTail3 epInner
    rw [split_a0, split_b0, split_cl]
    simp [List.append_assoc]
  have hshape_b2 : objCNF rid b su sp sn du dp dn =
      ('\x7b' :: srcMid rid b) ++ (('\x7b' :: epInner su sp sn) ++
        ('\x7d' :: objTail4 du dp dn)) := by
    rw [hshape_b1]
    simp [List.append_assoc]
  have hpre : isPrefixB ('"' :: strL "source" ++ ['"'])
      ((objCNF rid b su sp sn du dp dn).drop (srcPrefix rid b).length) = true := by
    have hdropS : (objCNF rid b su sp sn du dp dn).drop (srcPrefix rid b).length =
        strL "\"source\":" ++ (' ' :: (epSliceCNF su sp sn ++ objTail4 du dp dn)) := by
      rw [hshape_s]
      exact drop_head_append _ _ _ rfl
    rw [hdropS]
    rfl
  obtain ⟨ks, hks, hksle⟩ := findSub_le ('"' :: strL "source" ++ ['"'])
    (objCNF rid b su sp sn du dp dn) (srcPrefix rid b).length hpre
  have hks1 : 1 ≤ ks := findSub_ge_one _ _ (by rfl) ks hks
  have hbs : findCharFrom (objCNF rid b su sp sn du dp dn) '\x7b' ks =
      some (1 + (srcMid rid b).length) := by
    rw [hshape_b1]
    have h := findCharFrom_char '\x7b' ['\x7b'] (srcMid rid b)
      (epInner su sp sn ++ ('\x7d' :: objTail4 du dp dn)) ks
      (by simpa using hks1)
      (by
        simp only [List.length_singleton]
        have hle : (srcPrefix rid b).length ≤ 1 + (srcMid rid b).length := by
          simp [srcPrefix, srcMid, List.length_append, List.length_cons,
            len_s8, len_s7, len_id5, len_c8, len_en10, len_so9]
          omega
        omega)
      (fun a ha => srcMid_no_open rid b hrid a (List.mem_of_mem_drop ha))
    simpa using h
  have hbe : findCharFrom (objCNF rid b su sp sn du dp dn) '\x7d'
      (1 + (srcMid rid b).length) =
      some ((srcMid rid b).length + 1 + ((epInner su sp sn).length + 1)) := by
    rw [hshape_b2]
    have h := findCharFrom_char '\x7d' ('\x7b' :: srcMid rid b)
      ('\x7b' :: epInner su sp sn) (objTail4 du dp dn)
      (1 + (srcMid rid b).length)
      (by simp only [List.length_cons]; try omega)
      (by simp only [List.length_cons]; try omega)
      (fun a ha => noChar_cons (by decide)
        (epInner_no_close su sp sn hsu hsp hsn) a (List.mem_of_mem_drop ha))
    simpa using h
  have hslice : cppSubstr (objCNF rid b su sp sn du dp dn)
      (1 + (srcMid rid b).length)
      ((srcMid rid b).length + 1 + ((epInner su sp sn).length + 1) -
        (1 + (srcMid rid b).length) + 1) = epSliceCNF su sp sn := by
    unfold cppSubstr
    have hdrop : (objCNF rid b su sp sn du dp dn).drop (1 + (srcMid rid b).length) =
        ('\x7b' :: epInner su sp sn) ++ ('\x7d' :: objTail4 du dp dn) := by
      rw [hshape_b2]
      exact drop_head_append _ _ _ (by rw [List.length_cons]; omega)
    rw [hdrop]
    have hcnt : (srcMid rid b).length + 1 + ((epInner su sp sn).length + 1) -
        (1 + (srcMid rid b).length) + 1 = (epInner su sp sn).length + 2 := by omega
    rw [hcnt]
    have hre : ('\x7b' :: epInner su sp sn) ++ ('\x7d' :: objTail4 du dp dn) =
        (('\x7b' :: epInner su sp sn) ++ ['\x7d']) ++ objTail4 du dp dn := by
      simp
    rw [hre, take_head_append _ _ _ (by simp only [List.length_append, List.length_cons, List.length_nil]; try omega), epSlice_recompose]
  simp only [parseEndpoint, hks, hbs, hbe, hslice]
  rw [ep_serverUrl su sp sn (plain_no_quote hsu),
    ep_portId su sp sn (plain_no_quote hsu) (plain_no_quote hsp),
    ep_portName su sp sn (plain_no_quote hsu) (plain_no_quote hsp)
      (plain_no_quote hsn)]


/-- The object text strictly before the "destination" key. -/
def destPrefix (rid : Str) (b : Bool) (su sp sn : Str) : Str :=
  strL "\x7b\n      " ++ (strL "\"id\":" ++ (' ' :: '"' :: (rid ++ '"' ::
    (strL ",\n      " ++ (strL "\"enabled\":" ++ (' ' ::
      ((if b then strL "true" else strL "false") ++
        (strL ",\n      " ++ (strL "\"source\":" ++ (' ' ::
          (epSliceCNF su sp sn ++ strL ",\n      ")))))))))))

theorem findSub_dest (rid : Str) (b : Bool) (su sp sn du dp dn : Str)
    (hrid : ∀ c ∈ rid, c ≠ '"') (hsu : ∀ c ∈ su, c ≠ '"')
    (hsp : ∀ c ∈ sp, c ≠ '"') (hsn : ∀ c ∈ sn, c ≠ '"')
    (hne1 : rid ≠ strL "destination") (hne2 : su ≠ strL "destination")
    (hne3 : sp ≠ strL "destination") (hne4 : sn ≠ strL "destination") :
    findSub ('"' :: (strL "destination" ++ ['"'])) (objCNF rid b su sp sn du dp dn) =
      some (destPrefix rid b su sp sn).length := by
  have h0a : isPrefixB ('"' :: (strL "destination" ++ ['"']))
      ('"' :: (rid ++ '"' :: objTail2 b su sp sn du dp dn)) = false :=
    keyBare_not_value (strL "destination") (by decide) rid hrid hne1
      (objTail2 b su sp sn du dp dn)
  have h1a : isPrefixB ('"' :: (strL "destination" ++ ['"']))
      ('"' :: objTail2 b su sp sn du dp dn) = false := by rfl
  have h0b : isPrefixB ('"' :: (strL "destination" ++ ['"']))
      ('"' :: (su ++ '"' :: (epTail2 sp sn ++ objTail4 du dp dn))) = false :=
    keyBare_not_value (strL "destination") (by decide) su hsu hne2
      (epTail2 sp sn ++ objTail4 du dp dn)
  have h1b : isPrefixB ('"' :: (strL "destination" ++ ['"']))
      ('"' :: (epTail2 sp sn ++ objTail4 du dp dn)) = false := by rfl
  have h0c : isPrefixB ('"' :: (strL "destination" ++ ['"']))
      ('"' :: (sp ++ '"' :: (epTail3 sn ++ objTail4 du dp dn))) = false :=
    keyBare_not_value (strL "destination") (by decide) sp hsp hne3
      (epTail3 sn ++ objTail4 du dp dn)
  have h1c : isPrefixB ('"' :: (strL "destination" ++ ['"']))
      ('"' :: (epTail3 sn ++ objTail4 du dp dn)) = false := by rfl
  have h0d : isPrefixB ('"' :: (strL "destination" ++ ['"']))
      ('"' :: (sn ++ '"' :: (strL "\n      \x7d" ++ objTail4 du dp dn))) = false :=
    keyBare_not_value (strL "destination") (by decide) sn hsn hne4
      (strL "\n      \x7d" ++ objTail4 du dp dn)
  have h1d : isPrefixB ('"' :: (strL "destination" ++ ['"']))
      ('"' :: (strL "\n      \x7d" ++ objTail4 du dp dn)) = false := by rfl
  show findSub ('"' :: (strL "destination" ++ ['"']))
      ((strL "\x7b\n      " ++ (strL "\"id\":" ++ [' '])) ++
        ('"' :: (rid ++ '"' :: objTail2 b su sp sn du dp dn))) = _
  rw [findSub_skip ('"' :: (strL "destination" ++ ['"']))
      (strL "\x7b\n      " ++ (strL "\"id\":" ++ [' ']))
      ('"' :: (rid ++ '"' :: objTail2 b su sp sn du dp dn)) (by rfl)]
  rw [findSub_skip_quoted (strL "destination" ++ ['"']) rid
      (objTail2 b su sp sn du dp dn) hrid h0a h1a]
  unfold objTail2
  rw [findSub_skip_nq (strL "destination" ++ ['"']) (strL ",\n      ")
      (strL "\"enabled\":" ++ (' ' :: ((if b then strL "true" else strL "false") ++
        objTail3 su sp sn du dp dn))) (by decide)]
  rw [findSub_skip ('"' :: (strL "destination" ++ ['"'])) (strL "\"enabled\":")
      (' ' :: ((if b then strL "true" else strL "false") ++
        objTail3 su sp sn du dp dn)) (by rfl)]
  rw [findSub_cons_ne ('"' :: (strL "destination" ++ ['"'])) ' '
      ((if b then strL "true" else strL "false") ++ objTail3 su sp sn du dp dn)
      (by rfl)]
  rw [findSub_skip_nq (strL "destination" ++ ['"'])
      (if b then strL "true" else strL "false") (objTail3 su sp sn du dp dn)
      (tf_no_quote b)]
  unfold objTail3
  rw [findSub_skip_nq (strL "destination" ++ ['"']) (strL ",\n      ")
      (strL "\"source\":" ++ (' ' :: (epSliceCNF su sp sn ++ objTail4 du dp dn)))
      (by decide)]
  rw [findSub_skip ('"' :: (strL "destination" ++ ['"'])) (strL "\"source\":")
      (' ' :: (epSliceCNF su sp sn ++ objTail4 du dp dn)) (by rfl)]
  rw [findSub_cons_ne ('"' :: (strL "destination" ++ ['"'])) ' '
      (epSliceCNF su sp sn ++ objTail4 du dp dn) (by rfl)]
  unfold epSliceCNF
  simp only [List.append_assoc, List.cons_append]
  rw [findSub_skip_nq (strL "destination" ++ ['"']) (strL "\x7b\n        ")
      (strL "\"serverUrl\":" ++ (' ' :: '"' :: (su ++ '"' ::
        (epTail2 sp sn ++ objTail4 du dp dn)))) (by decide)]
  rw [findSub_skip ('"' :: (strL "destination" ++ ['"'])) (strL "\"serverUrl\":")
      (' ' :: '"' :: (su ++ '"' :: (epTail2 sp sn ++ objTail4 du dp dn))) (by rfl)]
  rw [findSub_cons_ne ('"' :: (strL "destination" ++ ['"'])) ' '
      ('"' :: (su ++ '"' :: (epTail2 sp sn ++ objTail4 du dp dn))) (by rfl)]
  rw [findSub_skip_quoted (strL "destination" ++ ['"']) su
      (epTail2 sp sn ++ objTail4 du dp dn) hsu h0b h1b]
  unfold epTail2
  simp only [List.append_assoc, List.cons_append]
  rw [findSub_skip_nq (strL "destination" ++ ['"']) (strL ",\n        ")
      (strL "\"portId\":" ++ (' ' :: '"' :: (sp ++ '"' ::
        (epTail3 sn ++ objTail4 du dp dn)))) (by decide)]
  rw [findSub_skip ('"' :: (strL "destination" ++ ['"'])) (strL "\"portId\":")
      (' ' :: '"' :: (sp ++ '"' :: (epTail3 sn ++ objTail4 du dp dn))) (by rfl)]
  rw [findSub_cons_ne ('"' :: (strL "destination" ++ ['"'])) ' '
      ('"' :: (sp ++ '"' :: (epTail3 sn ++ objTail4 du dp dn))) (by rfl)]
  rw [findSub_skip_quoted (strL "destination" ++ ['"']) sp
      (epTail3 sn ++ objTail4 du dp dn) hsp h0c h1c]
  unfold epTail3
  simp only [List.append_assoc, List.cons_append]
  rw [findSub_skip_nq (strL "destination" ++ ['"']) (strL ",\n        ")
      (strL "\"portName\":" ++ (' ' :: '"' :: (sn ++ '"' ::
        (strL "\n      \x7d" ++ objTail4 du dp dn)))) (by decide)]
  rw [findSub_skip ('"' :: (strL "destination" ++ ['"'])) (strL "\"portName\":")
      (' ' :: '"' :: (sn ++ '"' :: (strL "\n      \x7d" ++ objTail4 du dp dn)))
      (by rfl)]
  rw [findSub_cons_ne ('"' :: (strL "destination" ++ ['"'])) ' '
      ('"' :: (sn ++ '"' :: (strL "\n      \x7d" ++ objTail4 du dp dn))) (by rfl)]
  rw [findSub_skip_quoted (strL "destination" ++ ['"']) sn
      (strL "\n      \x7d" ++ objTail4 du dp dn) hsn h0d h1d]
  rw [findSub_skip_nq (strL "destination" ++ ['"']) (strL "\n      \x7d")
      (objTail4 du dp dn) (by decide)]
  unfold objTail4
  rw [findSub_skip_nq (strL "destination" ++ ['"']) (strL ",\n      ")
      (strL "\"destination\":" ++ (' ' :: (epSliceCNF du dp dn ++ strL "\n    \x7d")))
      (by decide)]
  rw [findSub_here _ _ (by rfl)]
  simp [destPrefix, epSliceCNF, epTail2, epTail3, List.length_append,
    List.length_cons, len_s8, len_id5, len_c8, len_en10, len_so9, len_de14,
    len_e10, len_su12, len_pi9, len_pn11, len_c10, len_ce8]
  try omega


theorem parse_destination (rid : Str) (b : Bool) (su sp sn du dp dn : Str)
    (hrid : plainStr rid = true) (hsu : plainStr su = true)
    (hsp : plainStr sp = true) (hsn : plainStr sn = true)
    (hdu : plainStr du = true) (hdp : plainStr dp = true)
    (hdn : plainStr dn = true)
    (hne1 : rid ≠ strL "destination") (hne2 : su ≠ strL "destination")
    (hne3 : sp ≠ strL "destination") (hne4 : sn ≠ strL "destination") :
    parseEndpoint (objCNF rid b su sp sn du dp dn) (strL "destination") =
      ⟨du, dp, dn⟩ := by
  have hshape_d1 : objCNF rid b su sp sn du dp dn =
      destPrefix rid b su sp sn ++ ((strL "\"destination\":" ++ [' ']) ++
        ('\x7b' :: (epInner du dp dn ++ ('\x7d' :: strL "\n    \x7d")))) := by
    unfold objCNF objTail2 objTail3 objTail4 destPrefix epSliceCNF epTail2 epTail3
      epInner
    rw [split_b0, split_cl]
    simp [List.append_assoc]
  have hshape_d2 : objCNF rid b su sp sn du dp dn =
      (destPrefix rid b su sp sn ++ (strL "\"destination\":" ++ [' '])) ++
        (('\x7b' :: epInner du dp dn) ++ ('\x7d' :: strL "\n    \x7d")) := by
    rw [hshape_d1]
    simp [List.append_assoc]
  have hks : findSub ('"' :: strL "destination" ++ ['"'])
      (objCNF rid b su sp sn du dp dn) = some (destPrefix rid b su sp sn).length :=
    findSub_dest rid b su sp sn du dp dn (plain_no_quote hrid) (plain_no_quote hsu)
      (plain_no_quote hsp) (plain_no_quote hsn) hne1 hne2 hne3 hne4
  have hbs : findCharFrom (objCNF rid b su sp sn du dp dn) '\x7b'
      (destPrefix rid b su sp sn).length =
      some ((destPrefix rid b su sp sn).length + 15) := by
    rw [hshape_d1]
    have h := findCharFrom_char '\x7b' (destPrefix rid b su sp sn)
      (strL "\"destination\":" ++ [' '])
      (epInner du dp dn ++ ('\x7d' :: strL "\n    \x7d"))
      (destPrefix rid b su sp sn).length
      (Nat.le_refl _) (Nat.le_add_right _ _)
      (fun a ha =>
        (by decide : ∀ x ∈ strL "\"destination\":" ++ [' '], x ≠ '\x7b') a
          (List.mem_of_mem_drop ha))
    simpa [len_de14] using h
  have hbe : findCharFrom (objCNF rid b su sp sn du dp dn) '\x7d'
      ((destPrefix rid b su sp sn).length + 15) =
      some ((destPrefix rid b su sp sn).length + 15 +
        ((epInner du dp dn).length + 1)) := by
    rw [hshape_d2]
    have h := findCharFrom_char '\x7d'
      (destPrefix rid b su sp sn ++ (strL "\"destination\":" ++ [' ']))
      ('\x7b' :: epInner du dp dn) (strL "\n    \x7d")
      ((destPrefix rid b su sp sn).length + 15)
      (by simp only [List.length_append, List.length_cons, List.length_nil,
        len_de14]; try omega)
      (by simp only [List.length_append, List.length_cons, List.length_nil,
        len_de14]; try omega)
      (fun a ha => noChar_cons (by decide)
        (epInner_no_close du dp dn hdu hdp hdn) a (List.mem_of_mem_drop ha))
    simpa [len_de14] using h
  have hslice : cppSubstr (objCNF rid b su sp sn du dp dn)
      ((destPrefix rid b su sp sn).length + 15)
      ((destPrefix rid b su sp sn).length + 15 + ((epInner du dp dn).length + 1) -
        ((destPrefix rid b su sp sn).length + 15) + 1) = epSliceCNF du dp dn := by
    unfold cppSubstr
    have hdrop : (objCNF rid b su sp sn du dp dn).drop
        ((destPrefix rid b su sp sn).length + 15) =
        ('\x7b' :: epInner du dp dn) ++ ('\x7d' :: strL "\n    \x7d") := by
      rw [hshape_d2]
      exact drop_head_append _ _ _ (by simp only [List.length_append,
        List.length_cons, List.length_nil, len_de14]; try omega)
    rw [hdrop]
    have hcnt : (destPrefix rid b su sp sn).length + 15 +
        ((epInner du dp dn).length + 1) -
        ((destPrefix rid b su sp sn).length + 15) + 1 =
        (epInner du dp dn).length + 2 := by omega
    rw [hcnt]
    have hre : ('\x7b' :: epInner du dp dn) ++ ('\x7d' :: strL "\n    \x7d") =
        (('\x7b' :: epInner du dp dn) ++ ['\x7d']) ++ strL "\n    \x7d" := by
      simp
    rw [hre, take_head_append _ _ _ (by simp only [List.length_append,
      List.length_cons, List.length_nil]; try omega), epSlice_recompose]
  simp only [parseEndpoint, hks, hbs, hbe, hslice]
  rw [ep_serverUrl du dp dn (plain_no_quote hdu),
    ep_portId du dp dn (plain_no_quote hdu) (plain_no_quote hdp),
    ep_portName du dp dn (plain_no_quote hdu) (plain_no_quote hdp)
      (plain_no_quote hdn)]


theorem parseRouteObject_cnf (rid : Str) (b : Bool) (su sp sn du dp dn : Str)
    (hrid : plainStr rid = true) (hsu : plainStr su = true)
    (hsp : plainStr sp = true) (hsn : plainStr sn = true)
    (hdu : plainStr du = true) (hdp : plainStr dp = true)
    (hdn : plainStr dn = true)
    (hne1 : rid ≠ strL "destination") (hne2 : su ≠ strL "destination")
    (hne3 : sp ≠ strL "destination") (hne4 : sn ≠ strL "destination") :
    parseRouteObject (objCNF rid b su sp sn du dp dn) =
      ⟨rid, b, ⟨su, sp, sn⟩, ⟨du, dp, dn⟩, 0⟩ := by
  unfold parseRouteObject
  rw [parse_id rid b su sp sn du dp dn (plain_no_quote hrid),
    parse_enabled rid b su sp sn du dp dn (plain_no_quote hrid),
    parse_source rid b su sp sn du dp dn hrid hsu hsp hsn,
    parse_destination rid b su sp sn du dp dn hrid hsu hsp hsn hdu hdp hdn
      hne1 hne2 hne3 hne4]

theorem allMem_append {α : Type} {P : α → Prop} {A B : List α}
    (hA : ∀ a ∈ A, P a) (hB : ∀ a ∈ B, P a) : ∀ a ∈ A ++ B, P a := by
  intro a ha
  rcases List.mem_append.mp ha with h | h
  · exact hA a h
  · exact hB a h

theorem allMem_cons {α : Type} {P : α → Prop} {d : α} {B : List α}
    (hd : P d) (hB : ∀ a ∈ B, P a) : ∀ a ∈ d :: B, P a := by
  intro a ha
  rcases List.mem_cons.mp ha with h | h
  · rw [h]; exact hd
  · exact hB a h

theorem srcMid_no_brace (rid : Str) (b : Bool) (hrid : plainStr rid = true) :
    ∀ a ∈ srcMid rid b, a ≠ '\x7b' ∧ a ≠ '\x7d' := by
  unfold srcMid
  exact allMem_append (by decide) (allMem_append (by decide) (allMem_cons (by decide)
    (allMem_cons (by decide) (allMem_append (plain_no_brace hrid)
    (allMem_cons (by decide) (allMem_append (by decide) (allMem_append (by decide)
    (allMem_cons (by decide) (allMem_append (tf_no_brace b)
    (allMem_append (by decide) (allMem_append (by decide) (by decide))))))))))))

theorem epInner_no_brace (u p n : Str) (hu : plainStr u = true)
    (hp : plainStr p = true) (hn : plainStr n = true) :
    ∀ a ∈ epInner u p n, a ≠ '\x7b' ∧ a ≠ '\x7d' := by
  unfold epInner
  exact allMem_append (by decide) (allMem_append (by decide) (allMem_cons (by decide)
    (allMem_cons (by decide) (allMem_append (plain_no_brace hu)
    (allMem_cons (by decide) (allMem_append (by decide) (allMem_append (by decide)
    (allMem_cons (by decide) (allMem_cons (by decide)
    (allMem_append (plain_no_brace hp) (allMem_cons (by decide)
    (allMem_append (by decide) (allMem_append (by decide) (allMem_cons (by decide)
    (allMem_cons (by decide) (allMem_append (plain_no_brace hn)
    (allMem_cons (by decide) (by decide))))))))))))))))))

theorem len_n5 : (strL "\n    ").length = 5 := rfl

theorem len_ind4 : (strL "    ").length = 4 := rfl

theorem len_sep2 : (strL ",\n").length = 2 := rfl

theorem braceLoop_obj (rid : Str) (b : Bool) (su sp sn du dp dn : Str)
    (hrid : plainStr rid = true) (hsu : plainStr su = true)
    (hsp : plainStr sp = true) (hsn : plainStr sn = true)
    (hdu : plainStr du = true) (hdp : plainStr dp = true)
    (hdn : plainStr dn = true) (rest : Str) :
    braceLoop (srcMid rid b ++ ('\x7b' :: (epInner su sp sn ++ ('\x7d' ::
      ((strL ",\n      " ++ (strL "\"destination\":" ++ [' '])) ++ ('\x7b' ::
      (epInner du dp dn ++ ('\x7d' :: (strL "\n    " ++ ('\x7d' :: rest)))))))))) 1 1 =
      some (objCNF rid b su sp sn du dp dn).length := by
  rw [braceLoop_skip (srcMid rid b) (srcMid_no_brace rid b hrid)]
  rw [braceLoop_open]
  rw [braceLoop_skip (epInner su sp sn) (epInner_no_brace su sp sn hsu hsp hsn)]
  rw [braceLoop_close]
  rw [braceLoop_skip (strL ",\n      " ++ (strL "\"destination\":" ++ [' ']))
    (by decide)]
  rw [braceLoop_open]
  rw [braceLoop_skip (epInner du dp dn) (epInner_no_brace du dp dn hdu hdp hdn)]
  rw [braceLoop_close]
  rw [braceLoop_skip (strL "\n    ") (by decide)]
  rw [braceLoop_close]
  rw [braceLoop_zero]
  simp [objCNF, objTail2, objTail3, objTail4, epSliceCNF, epTail2, epTail3,
    epInner, srcMid, List.length_append, List.length_cons, len_s8, len_s7,
    len_id5, len_c8, len_en10, len_so9, len_de14, len_e10, len_e9, len_su12,
    len_pi9, len_pn11, len_c10, len_ce8, len_co6, len_n5]
  try omega


theorem parseLoop_step (lead : Str) (hlead : ∀ a ∈ lead, a ≠ '\x7b')
    (rid : Str) (b : Bool) (su sp sn du dp dn : Str)
    (hrid : plainStr rid = true) (hsu : plainStr su = true)
    (hsp : plainStr sp = true) (hsn : plainStr sn = true)
    (hdu : plainStr du = true) (hdp : plainStr dp = true)
    (hdn : plainStr dn = true)
    (hne1 : rid ≠ strL "destination") (hne2 : su ≠ strL "destination")
    (hne3 : sp ≠ strL "destination") (hne4 : sn ≠ strL "destination")
    (hem1 : rid ≠ []) (hem2 : sp ≠ []) (hem3 : dp ≠ [])
    (fuel : Nat) (rest : Str) (acc : Table) :
    parseLoopFuel (fuel + 1) (lead ++ (objCNF rid b su sp sn du dp dn ++ rest)) acc =
      parseLoopFuel fuel rest
        (mapInsert ⟨rid, b, ⟨su, sp, sn⟩, ⟨du, dp, dn⟩, 0⟩ acc) := by
  have hk : findIdxChar '\x7b' (lead ++ (objCNF rid b su sp sn du dp dn ++ rest)) =
      some lead.length := by
    rw [findIdxChar_append_not_mem '\x7b' lead _ hlead]
    have h0 : findIdxChar '\x7b' (objCNF rid b su sp sn du dp dn ++ rest) =
        some 0 := findIdxChar_cons_self '\x7b' _
    rw [h0]
    simp
  have hshape_loop : lead ++ (objCNF rid b su sp sn du dp dn ++ rest) =
      (lead ++ ['\x7b']) ++ (srcMid rid b ++ ('\x7b' :: (epInner su sp sn ++ ('\x7d' ::
        ((strL ",\n      " ++ (strL "\"destination\":" ++ [' '])) ++ ('\x7b' ::
        (epInner du dp dn ++ ('\x7d' :: (strL "\n    " ++ ('\x7d' :: rest)))))))))) := by
    unfold objCNF objTail2 objTail3 objTail4 srcMid epSliceCNF epTail2 epTail3 epInner
    rw [split_a0, split_b0, split_cl, split_co]
    simp [List.append_assoc]
  have hd1 : (lead ++ (objCNF rid b su sp sn du dp dn ++ rest)).drop
      (lead.length + 1) =
      srcMid rid b ++ ('\x7b' :: (epInner su sp sn ++ ('\x7d' ::
        ((strL ",\n      " ++ (strL "\"destination\":" ++ [' '])) ++ ('\x7b' ::
        (epInner du dp dn ++ ('\x7d' :: (strL "\n    " ++ ('\x7d' :: rest))))))))) := by
    rw [hshape_loop]
    exact drop_head_append _ _ _ (by simp)
  have hm : braceLoop ((lead ++ (objCNF rid b su sp sn du dp dn ++ rest)).drop
      (lead.length + 1)) 1 1 = some (objCNF rid b su sp sn du dp dn).length := by
    rw [hd1]
    exact braceLoop_obj rid b su sp sn du dp dn hrid hsu hsp hsn hdu hdp hdn rest
  have hobj : ((lead ++ (objCNF rid b su sp sn du dp dn ++ rest)).drop
      lead.length).take (objCNF rid b su sp sn du dp dn).length =
      objCNF rid b su sp sn du dp dn := by
    rw [drop_head_append lead _ _ rfl]
    exact take_head_append _ _ _ rfl
  have hd2 : (lead ++ (objCNF rid b su sp sn du dp dn ++ rest)).drop
      (lead.length + (objCNF rid b su sp sn du dp dn).length) = rest := by
    have e1 : (lead ++ (objCNF rid b su sp sn du dp dn ++ rest)).drop
        (lead.length + (objCNF rid b su sp sn du dp dn).length) =
        ((lead ++ (objCNF rid b su sp sn du dp dn ++ rest)).drop
          lead.length).drop (objCNF rid b su sp sn du dp dn).length := by
      rw [List.drop_drop, Nat.add_comm]
    rw [e1, drop_head_append lead _ _ rfl, drop_head_append _ rest _ rfl]
  simp only [parseLoopFuel, hk, hm, hobj,
    parseRouteObject_cnf rid b su sp sn du dp dn hrid hsu hsp hsn hdu hdp hdn
      hne1 hne2 hne3 hne4, hd2]
  have hcond : (if ¬ (⟨rid, b, ⟨su, sp, sn⟩, ⟨du, dp, dn⟩, 0⟩ : MidiRoute).id = [] ∧
      ¬ (⟨rid, b, ⟨su, sp, sn⟩, ⟨du, dp, dn⟩, 0⟩ : MidiRoute).source.portId = [] ∧
      ¬ (⟨rid, b, ⟨su, sp, sn⟩, ⟨du, dp, dn⟩, 0⟩ : MidiRoute).destination.portId = []
      then mapInsert ⟨rid, b, ⟨su, sp, sn⟩, ⟨du, dp, dn⟩, 0⟩ acc else acc) =
      mapInsert ⟨rid, b, ⟨su, sp, sn⟩, ⟨du, dp, dn⟩, 0⟩ acc :=
    if_pos ⟨hem1, hem2, hem3⟩
  rw [hcond]


theorem parseLoop_body : ∀ (rs : List MidiRoute), (∀ r ∈ rs, GoodRoute r) →
    ∀ (lead : Str), (∀ a ∈ lead, a ≠ '\x7b') → ∀ (fuel : Nat),
    rs.length + 1 ≤ fuel → ∀ (acc : Table),
    parseLoopFuel fuel (lead ++ (saveBody rs ++ strL "\n  ]\n\x7d\n")) acc =
      rs.foldl (fun a r => mapInsert (zeroCounter r) a) acc := by
  intro rs
  induction rs with
  | nil =>
      intro _ lead hlead fuel hfuel acc
      obtain ⟨f, rfl⟩ : ∃ f, fuel = f + 1 := ⟨fuel - 1, by omega⟩
      have hnone : findIdxChar '\x7b'
          (lead ++ (saveBody [] ++ strL "\n  ]\n\x7d\n")) = none := by
        apply findIdxChar_eq_none
        exact noChar_append hlead (noChar_append (by decide) (by decide))
      simp only [parseLoopFuel, hnone]
      simp
  | cons r rs ih =>
      intro hg lead hlead fuel hfuel acc
      obtain ⟨f, rfl⟩ : ∃ f, fuel = f + 1 := ⟨fuel - 1, by omega⟩
      obtain ⟨p1, p2, p3, p4, p5, p6, p7, e1, e2, e3, n1, n2, n3, n4⟩ :=
        hg r (by simp)
      cases rs with
      | nil =>
          have hstr : lead ++ (saveBody [r] ++ strL "\n  ]\n\x7d\n") =
              (lead ++ strL "    ") ++
              (objCNF r.id r.enabled r.source.serverUrl r.source.portId
                r.source.portName r.destination.serverUrl r.destination.portId
                r.destination.portName ++ strL "\n  ]\n\x7d\n") := by
            simp only [saveBody]
            rw [objChars_eq_cnf r p1 p2 p3 p4 p5 p6 p7]
            simp [List.append_assoc]
          rw [hstr, parseLoop_step (lead ++ strL "    ")
            (noChar_append hlead (by decide)) r.id r.enabled r.source.serverUrl
            r.source.portId r.source.portName r.destination.serverUrl
            r.destination.portId r.destination.portName p1 p2 p3 p4 p5 p6 p7
            n1 n2 n3 n4 e1 e2 e3 f (strL "\n  ]\n\x7d\n") acc]
          exact ih (by simp) [] (by simp) f
            (by simp only [List.length_cons, List.length_nil] at hfuel ⊢; omega)
            (mapInsert (zeroCounter r) acc)
      | cons r2 rs2 =>
          have hstr : lead ++ (saveBody (r :: r2 :: rs2) ++ strL "\n  ]\n\x7d\n") =
              (lead ++ strL "    ") ++
              (objCNF r.id r.enabled r.source.serverUrl r.source.portId
                r.source.portName r.destination.serverUrl r.destination.portId
                r.destination.portName ++
                (strL ",\n" ++ (saveBody (r2 :: rs2) ++ strL "\n  ]\n\x7d\n"))) := by
            simp only [saveBody]
            rw [objChars_eq_cnf r p1 p2 p3 p4 p5 p6 p7]
            simp [List.append_assoc]
          rw [hstr, parseLoop_step (lead ++ strL "    ")
            (noChar_append hlead (by decide)) r.id r.enabled r.source.serverUrl
            r.source.portId r.source.portName r.destination.serverUrl
            r.destination.portId r.destination.portName p1 p2 p3 p4 p5 p6 p7
            n1 n2 n3 n4 e1 e2 e3 f
            (strL ",\n" ++ (saveBody (r2 :: rs2) ++ strL "\n  ]\n\x7d\n")) acc]
          exact ih (fun x hx => hg x (by simp [hx])) (strL ",\n") (by decide) f
            (by simp only [List.length_cons] at hfuel ⊢; omega)
            (mapInsert (zeroCounter r) acc)

theorem saveBody_len : ∀ (rs : List MidiRoute), rs.length ≤ (saveBody rs).length := by
  intro rs
  induction rs with
  | nil => simp [saveBody]
  | cons r rs ih =>
      cases rs with
      | nil =>
          simp only [saveBody, List.length_append, List.length_cons,
            List.length_nil, len_ind4]
          omega
      | cons r2 rs2 =>
          simp only [saveBody, List.length_append, List.length_cons, len_ind4,
            len_sep2] at ih ⊢
          omega

theorem loadFromDisk_save (t : Table) (hg : ∀ r ∈ t, GoodRoute r) :
    loadFromDisk (saveRoutes t) =
      t.foldl (fun a r => mapInsert (zeroCounter r) a) [] := by
  have hcontent : saveRoutes t = strL "\x7b\n  " ++ (strL "\"routes\": " ++
      ('[' :: ('\n' :: (saveBody t ++ strL "\n  ]\n\x7d\n")))) := by
    unfold saveRoutes
    rw [show strL "\x7b\n  \"routes\": [\n" = strL "\x7b\n  " ++ (strL "\"routes\": " ++
      ('[' :: ('\n' :: ([] : Str)))) from by decide]
    simp [List.append_assoc]
  have hfr : findSub (strL "\"routes\"") (saveRoutes t) = some 4 := by
    rw [hcontent, show (strL "\"routes\"" : Str) = '"' :: (strL "routes" ++ ['"'])
      from by decide]
    rw [findSub_skip_nq (strL "routes" ++ ['"']) (strL "\x7b\n  ")
      (strL "\"routes\": " ++ ('[' :: ('\n' :: (saveBody t ++ strL "\n  ]\n\x7d\n"))))
      (by decide)]
    rw [findSub_here _ _ (by rfl)]
    rfl
  have hbr : findCharFrom (saveRoutes t) '[' 4 = some 14 := by
    rw [hcontent]
    have h := findCharFrom_char '[' (strL "\x7b\n  ") (strL "\"routes\": ")
      ('\n' :: (saveBody t ++ strL "\n  ]\n\x7d\n")) 4 (by decide) (by decide)
      (fun a ha =>
        (by decide : ∀ x ∈ strL "\"routes\": ", x ≠ '[') a (List.mem_of_mem_drop ha))
    rw [h]
    decide
  simp only [loadFromDisk, hfr, hbr]
  have hdrop14 : (saveRoutes t).drop 14 =
      '[' :: ('\n' :: (saveBody t ++ strL "\n  ]\n\x7d\n")) := by
    have hcontent2 : saveRoutes t = strL "\x7b\n  \"routes\": " ++
        ('[' :: ('\n' :: (saveBody t ++ strL "\n  ]\n\x7d\n"))) := by
      unfold saveRoutes
      rw [show strL "\x7b\n  \"routes\": [\n" = strL "\x7b\n  \"routes\": " ++
        ('[' :: ('\n' :: ([] : Str))) from by decide]
      simp [List.append_assoc]
    rw [hcontent2]
    exact drop_head_append _ _ _ (by decide)
  rw [hdrop14]
  have hfuel : t.length + 1 ≤ (saveRoutes t).length + 1 := by
    have hlen := saveBody_len t
    simp only [saveRoutes, List.length_append]
    omega
  exact parseLoop_body t hg ['[', '\n'] (by decide) ((saveRoutes t).length + 1)
    hfuel []


theorem mapInsert_gt : ∀ (acc : Table) (r : MidiRoute),
    (∀ x ∈ acc, strLt x.id r.id = true) → mapInsert r acc = acc ++ [r] := by
  intro acc
  induction acc with
  | nil => intro r _; rfl
  | cons x xs ih =>
      intro r h
      have hx : strLt x.id r.id = true := h x (by simp)
      have h1 : strLt r.id x.id = false := strLt_asymm hx
      simp only [mapInsert]
      rw [if_neg (show ¬ strLt r.id x.id = true by simp [h1])]
      rw [if_neg (show ¬ r.id = x.id from fun he => by
        rw [he, strLt_irrefl] at hx; cases hx)]
      rw [ih r (fun y hy => h y (by simp [hy]))]
      rfl

theorem foldl_insert_sorted : ∀ (t acc : Table),
    (∀ x ∈ acc, ∀ y ∈ t, strLt x.id y.id = true) → TableSorted t →
    t.foldl (fun a r => mapInsert (zeroCounter r) a) acc =
      acc ++ t.map zeroCounter := by
  intro t
  induction t with
  | nil => intro acc _ _; simp
  | cons r rs ih =>
      intro acc hacc hs
      have hsorted_tail : TableSorted rs := (List.pairwise_cons.mp hs).2
      have hr_lt : ∀ y ∈ rs, strLt r.id y.id = true := (List.pairwise_cons.mp hs).1
      show List.foldl _ (mapInsert (zeroCounter r) acc) rs = _
      have hins : mapInsert (zeroCounter r) acc = acc ++ [zeroCounter r] :=
        mapInsert_gt acc (zeroCounter r) (fun x hx => hacc x hx r (by simp))
      rw [hins]
      rw [ih (acc ++ [zeroCounter r]) (by
        intro x hx y hy
        rcases List.mem_append.mp hx with h | h
        · exact hacc x h y (by simp [hy])
        · have hxr : x = zeroCounter r := by simpa using h
          rw [hxr]
          exact hr_lt y hy) hsorted_tail]
      simp

/-- C5: for a sorted table in which every route satisfies GoodRoute (all
seven string fields free of characters escaped by escapeJson and of braces,
the three identifying fields non-empty, and none of the four values written
before the destination key equal to the string destination), writing the
table with saveToDiskUnlocked and re-parsing the text with loadFromDisk
reproduces the table exactly, with every messagesForwarded counter reset
to zero. -/
theorem C5_routes_roundtrip (t : Table) (hs : TableSorted t)
    (hg : ∀ r ∈ t, GoodRoute r) :
    loadFromDisk (saveRoutes t) = t.map zeroCounter := by
  rw [loadFromDisk_save t hg]
  have h := foldl_insert_sorted t [] (by simp) hs
  simpa using h

/-- Witness: a concrete two-route table satisfying the hypotheses, on which
the round trip is exact. -/
theorem C5_routes_roundtrip_witness :
    TableSorted [⟨strL "a", true, ⟨[], strL "in", []⟩,
        ⟨strL "http://h:1", strL "out", []⟩, 5⟩,
      ⟨strL "b", false, ⟨[], strL "in2", strL "Name"⟩,
        ⟨[], strL "virtual:dst", []⟩, 0⟩] ∧
    (∀ r ∈ [⟨strL "a", true, ⟨[], strL "in", []⟩,
        ⟨strL "http://h:1", strL "out", []⟩, 5⟩,
      ⟨strL "b", false, ⟨[], strL "in2", strL "Name"⟩,
        ⟨[], strL "virtual:dst", []⟩, 0⟩], GoodRoute r) ∧
    loadFromDisk (saveRoutes [⟨strL "a", true, ⟨[], strL "in", []⟩,
        ⟨strL "http://h:1", strL "out", []⟩, 5⟩,
      ⟨strL "b", false, ⟨[], strL "in2", strL "Name"⟩,
        ⟨[], strL "virtual:dst", []⟩, 0⟩]) =
      [⟨strL "a", true, ⟨[], strL "in", []⟩,
        ⟨strL "http://h:1", strL "out", []⟩, 5⟩,
      ⟨strL "b", false, ⟨[], strL "in2", strL "Name"⟩,
        ⟨[], strL "virtual:dst", []⟩, 0⟩].map zeroCounter :=
  ⟨by decide, by decide,
    C5_routes_roundtrip _ (by decide) (by decide)⟩

set_option maxRecDepth 40000 in
/-- C5 counterexample: a route whose source portName contains a double
quote is escaped on save but never unescaped on load, so the reloaded
table differs from the original even after resetting counters. -/
theorem C5_routes_roundtrip_counterexample :
    ¬ (loadFromDisk (saveRoutes [⟨strL "r1", true, ⟨[], strL "in", strL "a\"b"⟩,
        ⟨[], strL "out", []⟩, 3⟩]) =
      [⟨strL "r1", true, ⟨[], strL "in", strL "a\"b"⟩,
        ⟨[], strL "out", []⟩, 3⟩].map zeroCounter) := by decide

end MidiServer
